import Mathlib

/-!
Verification development for the `ai-coding-tool-backend` repository.

Shallow embedding of the Python sources:
  * `memory_store.py` — the `MemoryStore` class (sessions dict, TTL expiry,
    per-session message cap, auto-creation);
  * `services/gemini_service.py` — `_simulate_smoother_streaming` and the
    chunk pipeline of `generate_streaming_response` (the Gemini provider
    itself is a black box; its emissions and its possible failure are
    oracle parameters);
  * `routes/chat.py` — the `generate_stream` bodies of `POST /chat/stream`
    (`chat_stream`) and `POST /stream` (`stream_chat`).

Python strings are modelled as `List Char`; `datetime.utcnow()` is modelled
by an explicit `now : Nat` parameter threaded through each operation (one
instant per request); the insertion-ordered Python `dict` is modelled as an
association list with in-place update.
-/

/-- Python `str` is modelled as a list of characters. -/
abbrev Str := List Char

/-- Concatenation of emitted chunks (`full_response += chunk`). -/
def concatStr (l : List Str) : Str := l.flatten

/-! ### Association-list model of the Python `dict` -/

/-- `d.get(k)` / `d[k]`: first binding wins (bindings are unique in a dict). -/
def dictLookup {β : Type} : List (Str × β) → Str → Option β
  | [], _ => none
  | (k', v') :: rest, k => if k' = k then some v' else dictLookup rest k

/-- `d[k] = v`: replace the binding in place, else append (insertion order). -/
def dictInsert {β : Type} : List (Str × β) → Str → β → List (Str × β)
  | [], k, v => [(k, v)]
  | (k', v') :: rest, k, v =>
      if k' = k then (k, v) :: rest else (k', v') :: dictInsert rest k v

/-- `del d[k]`: remove the (first) binding for `k`. -/
def dictErase {β : Type} : List (Str × β) → Str → List (Str × β)
  | [], _ => []
  | (k', v') :: rest, k => if k' = k then rest else (k', v') :: dictErase rest k

/-- Keys are pairwise distinct — always true of a real Python `dict`. -/
@[reducible] def keysNodup {β : Type} (m : List (Str × β)) : Prop :=
  (m.map Prod.fst).Nodup

/-- Python slice `l[-k:]`: the last `k` elements, except that `l[-0:]` is
the whole list (the `-0 == 0` slicing quirk). -/
def pyLastSlice {α : Type} (k : Nat) (l : List α) : List α :=
  if k = 0 then l else l.drop (l.length - k)

/-- Python `s.lower()` (ASCII behaviour). -/
def pyLower (s : Str) : Str := s.map Char.toLower

/-! ### Data model (`models/chat_models.py`) -/

/-- `MessageRole` enum. -/
inductive MessageRole : Type
  | user
  | assistant
  | system
deriving DecidableEq, Repr

/-- `ChatMessage` (pydantic model); `metadata` is never consulted and omitted. -/
structure ChatMessage : Type where
  role : MessageRole
  content : Str
  timestamp : Nat
deriving DecidableEq, Repr

/-- `ChatSession` (pydantic model). -/
structure ChatSession : Type where
  session_id : Str
  messages : List ChatMessage
  created_at : Nat
  updated_at : Nat
deriving DecidableEq, Repr

/-- `MemoryStore` state plus its construction-time configuration.
`session_timeout` is in the same abstract time unit as `now`. -/
structure MemoryStore : Type where
  sessions : List (Str × ChatSession)
  max_sessions : Nat
  session_timeout : Nat
  max_messages_per_session : Nat
deriving DecidableEq, Repr

/-! ### `memory_store.py` operations -/

/-- `MemoryStore._is_session_valid`: `utcnow() - session.updated_at <= self.session_timeout`. -/
def MemoryStore.is_session_valid (store : MemoryStore) (s : ChatSession) (now : Nat) : Bool :=
  decide (now - s.updated_at ≤ store.session_timeout)

/-- `MemoryStore.get_session`: return the session if present and valid;
if present but expired, delete it (lazy eviction) and return `none`. -/
def MemoryStore.get_session (store : MemoryStore) (session_id : Str) (now : Nat) :
    Option ChatSession × MemoryStore :=
  match dictLookup store.sessions session_id with
  | some s =>
      if store.is_session_valid s now then (some s, store)
      else (none, { store with sessions := dictErase store.sessions session_id })
  | none => (none, store)

/-- `MemoryStore._cleanup_old_sessions`: delete every session with
`utcnow() - session.updated_at > self.session_timeout`. -/
def MemoryStore.cleanup_old_sessions (store : MemoryStore) (now : Nat) : MemoryStore :=
  { store with
    sessions := store.sessions.filter
      (fun p => ! decide (store.session_timeout < now - p.2.updated_at)) }

/-- `MemoryStore.create_session` (the fresh `uuid4` is the `fresh` parameter):
cleanup when at capacity, then insert unconditionally. -/
def MemoryStore.create_session (store : MemoryStore) (fresh : Str) (now : Nat) :
    Str × MemoryStore :=
  let store :=
    if store.max_sessions ≤ store.sessions.length then store.cleanup_old_sessions now
    else store
  (fresh, { store with
            sessions := dictInsert store.sessions fresh ⟨fresh, [], now, now⟩ })

/-- `MemoryStore.create_session_with_id`: insert an empty session under the
given id unless the id is already bound; no capacity check, no cleanup. -/
def MemoryStore.create_session_with_id (store : MemoryStore) (session_id : Str) (now : Nat) :
    MemoryStore :=
  match dictLookup store.sessions session_id with
  | some _ => store
  | none =>
      { store with
        sessions := dictInsert store.sessions session_id ⟨session_id, [], now, now⟩ }

/-- `session.messages.append(message)` followed by
`if len(messages) > max: messages = messages[-max:]`. -/
def clampAppend (maxN : Nat) (msgs : List ChatMessage) (m : ChatMessage) : List ChatMessage :=
  let l := msgs ++ [m]
  if maxN < l.length then pyLastSlice maxN l else l

/-- The shared append-and-truncate tail of `add_message` /
`add_message_object`: append, set `session.updated_at = utcnow()`, truncate
to the last `max_messages_per_session` entries. -/
def MemoryStore.appendToSession (store : MemoryStore) (session_id : Str) (s : ChatSession)
    (m : ChatMessage) (now : Nat) : MemoryStore :=
  { store with
    sessions := dictInsert store.sessions session_id
      { s with messages := clampAppend store.max_messages_per_session s.messages m,
               updated_at := now } }

/-- The role conversion in `MemoryStore.add_message`:
`MessageRole.USER if role.lower() == "user" else MessageRole.ASSISTANT`.
(The `except` fallback to `USER` is unreachable for string input: the
conditional expression cannot raise.) -/
def parseRole (ro : Str) : MessageRole :=
  if pyLower ro = "user".toList then MessageRole.user else MessageRole.assistant

/-- `MemoryStore.add_message`: auto-creates the session when absent or
expired, then appends `ChatMessage(role, content, utcnow())` and truncates. -/
def MemoryStore.add_message (store : MemoryStore) (session_id : Str) (ro content : Str)
    (now : Nat) : Bool × MemoryStore :=
  match store.get_session session_id now with
  | (some s, store) =>
      (true, store.appendToSession session_id s ⟨parseRole ro, content, now⟩ now)
  | (none, store) =>
      let store := store.create_session_with_id session_id now
      match store.get_session session_id now with
      | (none, store) => (false, store)
      | (some s, store) =>
          (true, store.appendToSession session_id s ⟨parseRole ro, content, now⟩ now)

/-- `MemoryStore.add_message_object`: append a prebuilt `ChatMessage`;
no auto-creation — fails on an unknown or expired session. -/
def MemoryStore.add_message_object (store : MemoryStore) (session_id : Str)
    (m : ChatMessage) (now : Nat) : Bool × MemoryStore :=
  match store.get_session session_id now with
  | (none, store) => (false, store)
  | (some s, store) => (true, store.appendToSession session_id s m now)

/-- `MemoryStore.get_messages`: `[]` for an unknown/expired session; with
`limit` given and positive, the last `limit` messages (Python
`if limit and limit > 0: messages = messages[-limit:]`). -/
def MemoryStore.get_messages (store : MemoryStore) (session_id : Str)
    (limit : Option Nat) (now : Nat) : List ChatMessage × MemoryStore :=
  match store.get_session session_id now with
  | (none, store) => ([], store)
  | (some s, store) =>
      let msgs := s.messages
      let msgs :=
        match limit with
        | some l => if 0 < l then pyLastSlice l msgs else msgs
        | none => msgs
      (msgs, store)

/-- `MemoryStore.get_session_count`. -/
def MemoryStore.get_session_count (store : MemoryStore) : Nat :=
  store.sessions.length

/-! ### `services/gemini_service.py` -/

/-- Python `text.split(" ")`: split on every single space, keeping empty
pieces (`"".split(" ") == [""]`, `"a  b".split(" ") == ["a","","b"]`). -/
def splitSpace : Str → List Str
  | [] => [[]]
  | c :: rest =>
      if c = ' ' then [] :: splitSpace rest
      else
        match splitSpace rest with
        | [] => [[c]]
        | w :: ws => (c :: w) :: ws

/-- `" ".join`-style inverse of `splitSpace` (used only in proofs). -/
def joinSpace : List Str → Str
  | [] => []
  | [w] => w
  | w :: ws => w ++ ' ' :: joinSpace ws

/-- Python `sub in s` (substring containment). -/
def pyContains (sub : Str) : Str → Bool
  | [] => decide (sub = [])
  | c :: rest => sub.isPrefixOf (c :: rest) || pyContains sub rest

/-- Truthiness of Python `s.strip()` (also of `len(s.split()) >= 1`):
true iff `s` contains a non-whitespace character. -/
def pyTruthyStrip (s : Str) : Bool := s.any (fun c => ! c.isWhitespace)

/-- `any(char in word for char in [".", "!", "?", "\n", ":", ";", ","])`. -/
def hasPunct (w : Str) : Bool :=
  w.any (fun c => [',', '.', '!', '?', '\n', ':', ';'].contains c)

/-- The regular-text loop of `_simulate_smoother_streaming`: accumulate
`current_chunk`, add a space except after the last word, emit when the
chunk has a non-whitespace character, the word has punctuation, or the
word is the last one (so the last iteration always emits). -/
def chunkWords : Str → List Str → List Str
  | _, [] => []
  | cur, [w] => [cur ++ w]
  | cur, w :: ws =>
      let c := cur ++ w ++ [' ']
      if pyTruthyStrip c || hasPunct w then c :: chunkWords [] ws
      else chunkWords c ws

/-- `GeminiService._simulate_smoother_streaming`: for text containing a
code marker, emit each non-blank space-split word with a trailing space;
otherwise run the regular-text chunk loop. Empty text emits nothing. -/
def simulate_smoother_streaming (text : Str) : List Str :=
  if text = [] then []
  else if pyContains "```".toList text || pyContains "def ".toList text
          || pyContains "import ".toList text then
    (splitSpace text).filterMap
      (fun w => if pyTruthyStrip w then some (w ++ [' ']) else none)
  else
    chunkWords [] (splitSpace text)

/-- `GeminiService.generate_streaming_response`. The Gemini call is a black
box: `providerChunks` are the `chunk.text` values it produces before either
finishing (`providerErr = none`) or raising (`providerErr = some e`). Empty
chunk texts are skipped (`if chunk.text:`), each non-empty one is re-chunked
by `_simulate_smoother_streaming`; an exception is swallowed and emitted as
a final `"Error: {e}"` text chunk. `user_message` and `conversation_history`
are forwarded to the provider and do not otherwise affect the pipeline. -/
def generate_streaming_response (user_message : Str)
    (conversation_history : List ChatMessage)
    (providerChunks : List Str) (providerErr : Option Str) : List Str :=
  ((providerChunks.filter (fun c => ! decide (c = []))).flatMap
      simulate_smoother_streaming)
    ++ (match providerErr with
        | some e => ["Error: ".toList ++ e]
        | none => [])

/-! ### `routes/chat.py` streaming endpoints -/

/-- One Server-Sent Event as emitted by the two streaming endpoints. -/
inductive Event : Type
  | chunk (payload : Str) (sid : Str)
  | done (sid : Str)
  | doneFull (sid : Str) (full_response : Str) (message_count : Nat)
  | error (msg : Str) (sid : Str)
deriving DecidableEq, Repr

/-- The payloads of the increment (`chunk`) events, in delivery order. -/
def eventPayloads : List Event → List Str
  | [] => []
  | Event.chunk p _ :: rest => p :: eventPayloads rest
  | _ :: rest => eventPayloads rest

/-- Outcome of one streaming request: the SSE events delivered, the context
actually passed to the generator, the resolved session id, and the store
afterwards. -/
structure GenResult : Type where
  events : List Event
  ctx : List ChatMessage
  sid : Str
  store : MemoryStore
deriving Repr

/-- The `generate_stream` closure of `chat_stream` (`POST /chat/stream`),
run after the user message was appended: read history (limit 20), pass
`conversation_history[:-1]` as context, forward each chunk, append the
concatenated response as the Assistant message, emit the `done` event.
The closure's `except` branch is unreachable here because
`generate_streaming_response` swallows provider errors. -/
def chat_stream_generate (store : MemoryStore) (sid : Str) (message : Str)
    (providerChunks : List Str) (providerErr : Option Str) (now : Nat) : GenResult :=
  let (history, store) := store.get_messages sid (some 20) now
  let ctx := history.dropLast
  let chunks := generate_streaming_response message ctx providerChunks providerErr
  let full := concatStr chunks
  let (_, store) := store.add_message_object sid ⟨MessageRole.assistant, full, now⟩ now
  ⟨(chunks.map (fun c => Event.chunk c sid)) ++ [Event.done sid], ctx, sid, store⟩

/-- `chat_stream` (`POST /chat/stream`): resolve/create the session (the
404 on an unknown or expired supplied id is modelled as `none`), append
the user message, then run the `generate_stream` closure. -/
def chat_stream_route (store : MemoryStore) (message : Str)
    (req_session_id : Option Str) (fresh : Str)
    (providerChunks : List Str) (providerErr : Option Str) (now : Nat) :
    Option GenResult :=
  let resolved : Option (Str × MemoryStore) :=
    match req_session_id with
    | none => some (store.create_session fresh now)
    | some sid =>
        match store.get_session sid now with
        | (some _, store) => some (sid, store)
        | (none, _) => none
  match resolved with
  | none => none
  | some (sid, store) =>
      let (_, store) := store.add_message_object sid ⟨MessageRole.user, message, now⟩ now
      some (chat_stream_generate store sid message providerChunks providerErr now)

/-- The population of request-supplied initial messages inside `stream_chat`
(`for msg in stream_request.messages: ... if content and content != prompt:
memory_store.add_message(...)`). -/
def populateInitial (store : MemoryStore) (sid : Str) (req_messages : List (Str × Str))
    (prompt : Str) (now : Nat) : MemoryStore :=
  req_messages.foldl
    (fun st msg =>
      if msg.2 ≠ [] ∧ msg.2 ≠ prompt then
        (st.add_message sid (pyLower msg.1) msg.2 now).2
      else st)
    store

/-- The part of the `stream_chat` `generate_stream` closure from the context
computation (`history[:-1]` or `[]`) onward: generate, forward chunks,
append the "assistant" message, emit the final `done` event. -/
def stream_chat_finish (store : MemoryStore) (sid : Str) (history : List ChatMessage)
    (prompt : Str) (providerChunks : List Str) (providerErr : Option Str) (now : Nat) :
    GenResult :=
  let ctx := if 1 < history.length then history.dropLast else []
  let chunks := generate_streaming_response prompt ctx providerChunks providerErr
  let full := concatStr chunks
  let (_, store) := store.add_message sid "assistant".toList full now
  let (finalMsgs, store) := store.get_messages sid none now
  ⟨(chunks.map (fun c => Event.chunk c sid)) ++ [Event.doneFull sid full finalMsgs.length],
   ctx, sid, store⟩

/-- The `generate_stream` closure of `stream_chat` (`POST /stream`), run
after the user prompt was appended: read history, populate initial request
messages into a single-message session, then finish as above. -/
def stream_chat_generate (store : MemoryStore) (sid : Str)
    (req_messages : List (Str × Str)) (prompt : Str)
    (providerChunks : List Str) (providerErr : Option Str) (now : Nat) : GenResult :=
  let (history, store) := store.get_messages sid none now
  let (history, store) :=
    if history.length = 1 ∧ req_messages ≠ [] then
      let store := populateInitial store sid req_messages prompt now
      store.get_messages sid none now
    else (history, store)
  stream_chat_finish store sid history prompt providerChunks providerErr now

/-- `stream_chat` (`POST /stream`): use the supplied session id (auto-created
on append) or create a fresh one; append the user prompt; run the
`generate_stream` closure. Request `messages` entries are `(role, content)`
pairs after the `msg.get("role", "user")` / `msg.get("content", "")`
defaulting. -/
def stream_chat_route (store : MemoryStore) (req_messages : List (Str × Str))
    (prompt : Str) (req_session_id : Option Str) (fresh : Str)
    (providerChunks : List Str) (providerErr : Option Str) (now : Nat) : GenResult :=
  let (sid, store) :=
    match req_session_id with
    | some sid => (sid, store)
    | none => store.create_session fresh now
  let (_, store) := store.add_message sid "user".toList prompt now
  stream_chat_generate store sid req_messages prompt providerChunks providerErr now

/-! ### Lemmas about the dictionary model -/

theorem dictLookup_nil {β : Type} (k : Str) : dictLookup ([] : List (Str × β)) k = none := rfl

theorem dictLookup_cons_self {β : Type} (rest : List (Str × β)) (k : Str) (b : β) :
    dictLookup ((k, b) :: rest) k = some b := by simp [dictLookup]

theorem dictLookup_cons_ne {β : Type} (rest : List (Str × β)) (a k : Str) (b : β)
    (h : ¬ a = k) : dictLookup ((a, b) :: rest) k = dictLookup rest k := by
  simp [dictLookup, h]

theorem dictInsert_nil {β : Type} (k : Str) (v : β) :
    dictInsert ([] : List (Str × β)) k v = [(k, v)] := rfl

theorem dictInsert_cons_self {β : Type} (rest : List (Str × β)) (k : Str) (b v : β) :
    dictInsert ((k, b) :: rest) k v = (k, v) :: rest := by simp [dictInsert]

theorem dictInsert_cons_ne {β : Type} (rest : List (Str × β)) (a k : Str) (b v : β)
    (h : ¬ a = k) : dictInsert ((a, b) :: rest) k v = (a, b) :: dictInsert rest k v := by
  simp [dictInsert, h]

theorem dictErase_nil {β : Type} (k : Str) : dictErase ([] : List (Str × β)) k = [] := rfl

theorem dictErase_cons_self {β : Type} (rest : List (Str × β)) (k : Str) (b : β) :
    dictErase ((k, b) :: rest) k = rest := by simp [dictErase]

theorem dictErase_cons_ne {β : Type} (rest : List (Str × β)) (a k : Str) (b : β)
    (h : ¬ a = k) : dictErase ((a, b) :: rest) k = (a, b) :: dictErase rest k := by
  simp [dictErase, h]

theorem dictLookup_dictInsert_self {β : Type} (m : List (Str × β)) (k : Str) (v : β) :
    dictLookup (dictInsert m k v) k = some v := by
  induction m with
  | nil => rw [dictInsert_nil, dictLookup_cons_self]
  | cons p rest ih =>
      obtain ⟨a, b⟩ := p
      by_cases h : a = k
      · subst h
        rw [dictInsert_cons_self, dictLookup_cons_self]
      · rw [dictInsert_cons_ne rest a k b v h, dictLookup_cons_ne _ a k b h, ih]

theorem dictLookup_dictInsert_ne {β : Type} (m : List (Str × β)) (k k' : Str) (v : β)
    (h : k' ≠ k) : dictLookup (dictInsert m k v) k' = dictLookup m k' := by
  have h' : ¬ k = k' := fun hh => h hh.symm
  induction m with
  | nil => rw [dictInsert_nil, dictLookup_cons_ne _ k k' v h']
  | cons p rest ih =>
      obtain ⟨a, b⟩ := p
      by_cases hk : a = k
      · subst hk
        rw [dictInsert_cons_self, dictLookup_cons_ne _ a k' v h', dictLookup_cons_ne _ a k' b h']
      · by_cases hk' : a = k'
        · subst hk'
          rw [dictInsert_cons_ne rest a k b v hk, dictLookup_cons_self, dictLookup_cons_self]
        · rw [dictInsert_cons_ne rest a k b v hk, dictLookup_cons_ne _ a k' b hk',
              dictLookup_cons_ne _ a k' b hk', ih]

theorem dictInsert_dictInsert {β : Type} (m : List (Str × β)) (k : Str) (v w : β) :
    dictInsert (dictInsert m k v) k w = dictInsert m k w := by
  induction m with
  | nil => rw [dictInsert_nil, dictInsert_cons_self, dictInsert_nil]
  | cons p rest ih =>
      obtain ⟨a, b⟩ := p
      by_cases h : a = k
      · subst h
        rw [dictInsert_cons_self, dictInsert_cons_self, dictInsert_cons_self]
      · rw [dictInsert_cons_ne rest a k b v h, dictInsert_cons_ne _ a k b w h,
            dictInsert_cons_ne _ a k b w h, ih]

theorem length_dictInsert_of_lookup_none {β : Type} (m : List (Str × β)) (k : Str) (v : β)
    (h : dictLookup m k = none) : (dictInsert m k v).length = m.length + 1 := by
  induction m with
  | nil => rfl
  | cons p rest ih =>
      obtain ⟨a, b⟩ := p
      by_cases hk : a = k
      · subst hk
        rw [dictLookup_cons_self] at h
        exact absurd h (by simp)
      · rw [dictLookup_cons_ne rest a k b hk] at h
        rw [dictInsert_cons_ne rest a k b v hk, List.length_cons, List.length_cons, ih h]

theorem length_dictInsert_of_lookup_some {β : Type} (m : List (Str × β)) (k : Str) (v w : β)
    (h : dictLookup m k = some w) : (dictInsert m k v).length = m.length := by
  induction m with
  | nil => rw [dictLookup_nil] at h; exact absurd h (by simp)
  | cons p rest ih =>
      obtain ⟨a, b⟩ := p
      by_cases hk : a = k
      · subst hk
        rw [dictInsert_cons_self, List.length_cons, List.length_cons]
      · rw [dictLookup_cons_ne rest a k b hk] at h
        rw [dictInsert_cons_ne rest a k b v hk, List.length_cons, List.length_cons, ih h]

theorem length_dictErase_of_lookup_some {β : Type} (m : List (Str × β)) (k : Str) (w : β)
    (h : dictLookup m k = some w) : (dictErase m k).length + 1 = m.length := by
  induction m with
  | nil => rw [dictLookup_nil] at h; exact absurd h (by simp)
  | cons p rest ih =>
      obtain ⟨a, b⟩ := p
      by_cases hk : a = k
      · subst hk
        rw [dictErase_cons_self, List.length_cons]
      · rw [dictLookup_cons_ne rest a k b hk] at h
        rw [dictErase_cons_ne rest a k b hk, List.length_cons, List.length_cons, ih h]

theorem mem_keys_dictInsert {β : Type} (m : List (Str × β)) (k a : Str) (v : β)
    (h : a ∈ (dictInsert m k v).map Prod.fst) : a ∈ m.map Prod.fst ∨ a = k := by
  induction m with
  | nil =>
      rw [dictInsert_nil] at h
      simp only [List.map_cons, List.map_nil, List.mem_singleton] at h
      exact Or.inr h
  | cons p rest ih =>
      obtain ⟨c, b⟩ := p
      by_cases hk : c = k
      · subst hk
        rw [dictInsert_cons_self] at h
        simp only [List.map_cons, List.mem_cons] at h
        rcases h with h | h
        · exact Or.inr h
        · exact Or.inl (by simp only [List.map_cons, List.mem_cons]; exact Or.inr h)
      · rw [dictInsert_cons_ne rest c k b v hk] at h
        simp only [List.map_cons, List.mem_cons] at h
        rcases h with h | h
        · exact Or.inl (by simp only [List.map_cons, List.mem_cons]; exact Or.inl h)
        · rcases ih h with h' | h'
          · exact Or.inl (by simp only [List.map_cons, List.mem_cons]; exact Or.inr h')
          · exact Or.inr h'

theorem keysNodup_dictInsert {β : Type} (m : List (Str × β)) (k : Str) (v : β)
    (h : keysNodup m) : keysNodup (dictInsert m k v) := by
  induction m with
  | nil => simp [dictInsert_nil, keysNodup]
  | cons p rest ih =>
      obtain ⟨a, b⟩ := p
      simp only [keysNodup, List.map_cons, List.nodup_cons] at h
      by_cases hk : a = k
      · subst hk
        rw [dictInsert_cons_self]
        simp only [keysNodup, List.map_cons, List.nodup_cons]
        exact h
      · have hrest := ih h.2
        rw [dictInsert_cons_ne rest a k b v hk]
        simp only [keysNodup, List.map_cons, List.nodup_cons]
        refine ⟨fun hmem => ?_, hrest⟩
        rcases mem_keys_dictInsert rest k a v hmem with h' | h'
        · exact h.1 h'
        · exact hk h'

theorem keys_dictErase_sublist {β : Type} (m : List (Str × β)) (k : Str) :
    ((dictErase m k).map Prod.fst).Sublist (m.map Prod.fst) := by
  induction m with
  | nil => simp [dictErase_nil]
  | cons p rest ih =>
      obtain ⟨a, b⟩ := p
      by_cases hk : a = k
      · subst hk
        rw [dictErase_cons_self, List.map_cons]
        exact List.sublist_cons_of_sublist _ (List.Sublist.refl _)
      · rw [dictErase_cons_ne rest a k b hk, List.map_cons, List.map_cons]
        exact List.Sublist.cons₂ _ ih

theorem keysNodup_dictErase {β : Type} (m : List (Str × β)) (k : Str)
    (h : keysNodup m) : keysNodup (dictErase m k) :=
  List.Nodup.sublist (keys_dictErase_sublist m k) h

theorem dictLookup_none_of_not_mem_keys {β : Type} (m : List (Str × β)) (k : Str)
    (h : k ∉ m.map Prod.fst) : dictLookup m k = none := by
  induction m with
  | nil => rfl
  | cons p rest ih =>
      obtain ⟨a, b⟩ := p
      simp only [List.map_cons, List.mem_cons] at h
      push_neg at h
      have ha : ¬ a = k := fun hh => h.1 hh.symm
      rw [dictLookup_cons_ne rest a k b ha, ih h.2]

theorem dictLookup_dictErase_self {β : Type} (m : List (Str × β)) (k : Str)
    (h : keysNodup m) : dictLookup (dictErase m k) k = none := by
  induction m with
  | nil => rfl
  | cons p rest ih =>
      obtain ⟨a, b⟩ := p
      simp only [keysNodup, List.map_cons, List.nodup_cons] at h
      by_cases hk : a = k
      · subst hk
        rw [dictErase_cons_self]
        exact dictLookup_none_of_not_mem_keys rest a h.1
      · rw [dictErase_cons_ne rest a k b hk, dictLookup_cons_ne _ a k b hk, ih h.2]

theorem dictLookup_dictErase_ne {β : Type} (m : List (Str × β)) (k k' : Str)
    (h : k' ≠ k) : dictLookup (dictErase m k) k' = dictLookup m k' := by
  induction m with
  | nil => rfl
  | cons p rest ih =>
      obtain ⟨a, b⟩ := p
      by_cases hk : a = k
      · subst hk
        have h' : ¬ a = k' := fun hh => h (hh.symm)
        rw [dictErase_cons_self, dictLookup_cons_ne rest a k' b h']
      · by_cases hk' : a = k'
        · subst hk'
          rw [dictErase_cons_ne rest a k b hk, dictLookup_cons_self, dictLookup_cons_self]
        · rw [dictErase_cons_ne rest a k b hk, dictLookup_cons_ne _ a k' b hk',
              dictLookup_cons_ne rest a k' b hk', ih]

theorem dictLookup_filter_none {β : Type} (m : List (Str × β)) (k : Str)
    (p : Str × β → Bool) (h : dictLookup m k = none) :
    dictLookup (m.filter p) k = none := by
  induction m with
  | nil => rfl
  | cons q rest ih =>
      obtain ⟨a, b⟩ := q
      by_cases hq : a = k
      · subst hq
        rw [dictLookup_cons_self] at h
        exact absurd h (by simp)
      · rw [dictLookup_cons_ne rest a k b hq] at h
        rw [List.filter_cons]
        by_cases hp : p (a, b) = true
        · simp only [hp, if_true]
          rw [dictLookup_cons_ne _ a k b hq, ih h]
        · simp only [hp]
          simpa using ih h

theorem keysNodup_filter {β : Type} (m : List (Str × β)) (p : Str × β → Bool)
    (h : keysNodup m) : keysNodup (m.filter p) :=
  List.Nodup.sublist (List.Sublist.map Prod.fst (List.filter_sublist m)) h

/-! ### Lemmas about the message-list cap -/

theorem pyLastSlice_of_pos {α : Type} (k : Nat) (hk : 1 ≤ k) (l : List α) :
    pyLastSlice k l = l.drop (l.length - k) := by
  unfold pyLastSlice
  rw [if_neg (by omega)]

theorem clampAppend_nil (k : Nat) (m : ChatMessage) : clampAppend k [] m = [m] := by
  unfold clampAppend pyLastSlice
  cases k <;> simp

theorem clampAppend_eq_drop (k : Nat) (hk : 1 ≤ k) (l : List ChatMessage) (m : ChatMessage) :
    clampAppend k l m = (l ++ [m]).drop ((l ++ [m]).length - k) := by
  unfold clampAppend
  by_cases h : k < (l ++ [m]).length
  · rw [if_pos h, pyLastSlice_of_pos k hk]
  · rw [if_neg h]
    have : (l ++ [m]).length - k = 0 := by omega
    rw [this, List.drop_zero]

theorem clampAppend_getLast (k : Nat) (l : List ChatMessage) (m : ChatMessage) :
    (clampAppend k l m).getLast? = some m := by
  by_cases hk : 1 ≤ k
  · rw [clampAppend_eq_drop k hk l m]
    have hle : (l ++ [m]).length - k ≤ l.length := by
      simp only [List.length_append, List.length_cons, List.length_nil]
      omega
    rw [List.drop_append_of_le_length hle, List.getLast?_concat]
  · have hk0 : k = 0 := by omega
    subst hk0
    unfold clampAppend pyLastSlice
    simp [List.getLast?_concat]

theorem clampAppend_drop_comm (k : Nat) (hk : 1 ≤ k) (l : List ChatMessage) (m : ChatMessage) :
    clampAppend k (l.drop (l.length - k)) m = (l ++ [m]).drop ((l ++ [m]).length - k) := by
  rw [clampAppend_eq_drop k hk]
  by_cases h : l.length ≤ k
  · have : l.length - k = 0 := by omega
    rw [this, List.drop_zero]
  · have hkl : k ≤ l.length := by omega
    have hdl : (l.drop (l.length - k)).length = k := by
      rw [List.length_drop]
      omega
    have h1 : (l.drop (l.length - k) ++ [m]).length - k = 1 := by
      simp only [List.length_append, hdl, List.length_cons, List.length_nil]
      omega
    have h2 : (l ++ [m]).length - k = l.length - k + 1 := by
      simp only [List.length_append, List.length_cons, List.length_nil]
      omega
    rw [h1, h2]
    have hle1 : 1 ≤ (l.drop (l.length - k)).length := by omega
    have hle2 : l.length - k + 1 ≤ l.length := by omega
    rw [List.drop_append_of_le_length hle1, List.drop_append_of_le_length hle2,
        List.drop_drop, Nat.add_comm]

theorem foldl_clampAppend (k : Nat) (hk : 1 ≤ k) (l : List ChatMessage) :
    List.foldl (clampAppend k) [] l = l.drop (l.length - k) := by
  induction l using List.reverseRecOn with
  | nil => simp
  | append_singleton l x ih =>
      rw [List.foldl_append, ih]
      simpa using clampAppend_drop_comm k hk l x

/-! ### Case lemmas for the store operations -/

theorem get_session_of_absent (store : MemoryStore) (sid : Str) (now : Nat)
    (hs : dictLookup store.sessions sid = none) :
    store.get_session sid now = (none, store) := by
  unfold MemoryStore.get_session
  rw [hs]

theorem get_session_of_valid (store : MemoryStore) (sid : Str) (now : Nat) (s : ChatSession)
    (hs : dictLookup store.sessions sid = some s)
    (hv : store.is_session_valid s now = true) :
    store.get_session sid now = (some s, store) := by
  unfold MemoryStore.get_session
  rw [hs]
  simp only [hv, if_true]

theorem get_session_of_expired (store : MemoryStore) (sid : Str) (now : Nat) (s : ChatSession)
    (hs : dictLookup store.sessions sid = some s)
    (hv : store.is_session_valid s now = false) :
    store.get_session sid now =
      (none, { store with sessions := dictErase store.sessions sid }) := by
  unfold MemoryStore.get_session
  rw [hs]
  simp only [hv, Bool.false_eq_true, if_false]

theorem is_session_valid_updated_now (store : MemoryStore) (s : ChatSession) (now : Nat)
    (h : s.updated_at = now) : store.is_session_valid s now = true := by
  unfold MemoryStore.is_session_valid
  rw [h]
  simp

theorem add_message_of_valid (store : MemoryStore) (sid ro content : Str) (now : Nat)
    (s : ChatSession) (hs : dictLookup store.sessions sid = some s)
    (hv : store.is_session_valid s now = true) :
    store.add_message sid ro content now =
      (true, { store with
               sessions := dictInsert store.sessions sid
                 { s with
                   messages := clampAppend store.max_messages_per_session s.messages
                     ⟨parseRole ro, content, now⟩,
                   updated_at := now } }) := by
  have h1 := get_session_of_valid store sid now s hs hv
  simp only [MemoryStore.add_message, h1, MemoryStore.appendToSession]

theorem add_message_of_absent (store : MemoryStore) (sid ro content : Str) (now : Nat)
    (hs : dictLookup store.sessions sid = none) :
    store.add_message sid ro content now =
      (true, { store with
               sessions := dictInsert store.sessions sid
                 ⟨sid, [⟨parseRole ro, content, now⟩], now, now⟩ }) := by
  have h1 := get_session_of_absent store sid now hs
  have h2 := get_session_of_valid
    ({ store with sessions := dictInsert store.sessions sid ⟨sid, [], now, now⟩ })
    sid now ⟨sid, [], now, now⟩ (dictLookup_dictInsert_self store.sessions sid _)
    (is_session_valid_updated_now _ _ now rfl)
  simp only [MemoryStore.add_message, h1, MemoryStore.create_session_with_id, hs, h2,
    MemoryStore.appendToSession, clampAppend_nil, dictInsert_dictInsert]

theorem add_message_of_expired (store : MemoryStore) (sid ro content : Str) (now : Nat)
    (s : ChatSession) (hN : keysNodup store.sessions)
    (hs : dictLookup store.sessions sid = some s)
    (hv : store.is_session_valid s now = false) :
    store.add_message sid ro content now =
      (true, { store with
               sessions := dictInsert (dictErase store.sessions sid) sid
                 ⟨sid, [⟨parseRole ro, content, now⟩], now, now⟩ }) := by
  have h1 := get_session_of_expired store sid now s hs hv
  have he : dictLookup (dictErase store.sessions sid) sid = none :=
    dictLookup_dictErase_self _ sid hN
  have h2 := get_session_of_valid
    ({ store with sessions := dictInsert (dictErase store.sessions sid) sid ⟨sid, [], now, now⟩ })
    sid now ⟨sid, [], now, now⟩ (dictLookup_dictInsert_self _ sid _)
    (is_session_valid_updated_now _ _ now rfl)
  simp only [MemoryStore.add_message, h1, MemoryStore.create_session_with_id, he, h2,
    MemoryStore.appendToSession, clampAppend_nil, dictInsert_dictInsert]

theorem add_message_object_of_valid (store : MemoryStore) (sid : Str) (m : ChatMessage)
    (now : Nat) (s : ChatSession) (hs : dictLookup store.sessions sid = some s)
    (hv : store.is_session_valid s now = true) :
    store.add_message_object sid m now =
      (true, { store with
               sessions := dictInsert store.sessions sid
                 { s with
                   messages := clampAppend store.max_messages_per_session s.messages m,
                   updated_at := now } }) := by
  have h1 := get_session_of_valid store sid now s hs hv
  simp only [MemoryStore.add_message_object, h1, MemoryStore.appendToSession]

/-! ### Composite facts about `add_message` -/

theorem add_message_true (store : MemoryStore) (sid ro content : Str) (now : Nat)
    (hN : keysNodup store.sessions) :
    (store.add_message sid ro content now).1 = true := by
  cases hs : dictLookup store.sessions sid with
  | none => rw [add_message_of_absent store sid ro content now hs]
  | some s =>
      cases hv : store.is_session_valid s now with
      | true => rw [add_message_of_valid store sid ro content now s hs hv]
      | false => rw [add_message_of_expired store sid ro content now s hN hs hv]

theorem add_message_keeps (store : MemoryStore) (sid ro content : Str) (now : Nat)
    (hN : keysNodup store.sessions) :
    keysNodup ((store.add_message sid ro content now).2).sessions ∧
    ((store.add_message sid ro content now).2).max_sessions = store.max_sessions ∧
    ((store.add_message sid ro content now).2).session_timeout = store.session_timeout ∧
    ((store.add_message sid ro content now).2).max_messages_per_session
      = store.max_messages_per_session ∧
    ∃ s', dictLookup ((store.add_message sid ro content now).2).sessions sid = some s' ∧
      s'.updated_at = now := by
  cases hs : dictLookup store.sessions sid with
  | none =>
      rw [add_message_of_absent store sid ro content now hs]
      exact ⟨keysNodup_dictInsert _ sid _ hN, rfl, rfl, rfl, _,
        dictLookup_dictInsert_self _ sid _, rfl⟩
  | some s =>
      cases hv : store.is_session_valid s now with
      | true =>
          rw [add_message_of_valid store sid ro content now s hs hv]
          exact ⟨keysNodup_dictInsert _ sid _ hN, rfl, rfl, rfl, _,
            dictLookup_dictInsert_self _ sid _, rfl⟩
      | false =>
          rw [add_message_of_expired store sid ro content now s hN hs hv]
          exact ⟨keysNodup_dictInsert _ sid _ (keysNodup_dictErase _ sid hN), rfl, rfl, rfl, _,
            dictLookup_dictInsert_self _ sid _, rfl⟩

theorem add_message_count_fresh (store : MemoryStore) (sid ro content : Str) (now : Nat)
    (hs : dictLookup store.sessions sid = none) :
    ((store.add_message sid ro content now).2).sessions.length
      = store.sessions.length + 1 := by
  rw [add_message_of_absent store sid ro content now hs]
  exact length_dictInsert_of_lookup_none _ sid _ hs

theorem add_message_lookup_ne (store : MemoryStore) (sid ro content : Str) (now : Nat)
    (k : Str) (hN : keysNodup store.sessions) (hk : k ≠ sid) :
    dictLookup ((store.add_message sid ro content now).2).sessions k
      = dictLookup store.sessions k := by
  cases hs : dictLookup store.sessions sid with
  | none =>
      rw [add_message_of_absent store sid ro content now hs]
      exact dictLookup_dictInsert_ne _ sid k _ hk
  | some s =>
      cases hv : store.is_session_valid s now with
      | true =>
          rw [add_message_of_valid store sid ro content now s hs hv]
          exact dictLookup_dictInsert_ne _ sid k _ hk
      | false =>
          rw [add_message_of_expired store sid ro content now s hN hs hv]
          rw [dictLookup_dictInsert_ne _ sid k _ hk]
          exact dictLookup_dictErase_ne _ sid k hk

/-! ### Sequences of appends -/

/-- A sequence of `add_message` calls with the given `(role, content)` pairs
on one session, in immediate succession. -/
def appendSeq (store : MemoryStore) (sid : Str) (pairs : List (Str × Str)) (now : Nat) :
    MemoryStore :=
  pairs.foldl (fun st p => (st.add_message sid p.1 p.2 now).2) store

theorem appendSeq_messages (sid : Str) (now : Nat) (pairs : List (Str × Str)) :
    ∀ (store : MemoryStore) (s : ChatSession),
      keysNodup store.sessions →
      dictLookup store.sessions sid = some s →
      store.is_session_valid s now = true →
      ∃ s', dictLookup (appendSeq store sid pairs now).sessions sid = some s' ∧
        s'.messages = List.foldl (clampAppend store.max_messages_per_session) s.messages
            (pairs.map (fun p => (⟨parseRole p.1, p.2, now⟩ : ChatMessage))) := by
  induction pairs with
  | nil =>
      intro store s _ hs _
      exact ⟨s, hs, rfl⟩
  | cons p ps ih =>
      intro store s hN hs hv
      have hstep := add_message_of_valid store sid p.1 p.2 now s hs hv
      have hseq : appendSeq store sid (p :: ps) now =
          appendSeq ((store.add_message sid p.1 p.2 now).2) sid ps now := rfl
      rw [hseq, hstep]
      have hs1 : dictLookup
          (dictInsert store.sessions sid
            { s with
              messages := clampAppend store.max_messages_per_session s.messages
                ⟨parseRole p.1, p.2, now⟩,
              updated_at := now }) sid = some
          { s with
            messages := clampAppend store.max_messages_per_session s.messages
              ⟨parseRole p.1, p.2, now⟩,
            updated_at := now } := dictLookup_dictInsert_self _ sid _
      obtain ⟨s', hlook, hmsgs⟩ := ih
        { store with
          sessions := dictInsert store.sessions sid
            { s with
              messages := clampAppend store.max_messages_per_session s.messages
                ⟨parseRole p.1, p.2, now⟩,
              updated_at := now } }
        { s with
          messages := clampAppend store.max_messages_per_session s.messages
            ⟨parseRole p.1, p.2, now⟩,
          updated_at := now }
        (keysNodup_dictInsert _ sid _ hN) hs1
        (is_session_valid_updated_now _ _ now rfl)
      exact ⟨s', hlook, by simpa using hmsgs⟩

theorem appendSeq_of_fresh (store : MemoryStore) (sid : Str) (pairs : List (Str × Str))
    (now : Nat) (hN : keysNodup store.sessions)
    (hs : dictLookup store.sessions sid = none) (hne : pairs ≠ []) :
    ∃ s', dictLookup (appendSeq store sid pairs now).sessions sid = some s' ∧
      s'.messages = List.foldl (clampAppend store.max_messages_per_session) []
          (pairs.map (fun p => (⟨parseRole p.1, p.2, now⟩ : ChatMessage))) := by
  cases pairs with
  | nil => exact absurd rfl hne
  | cons p ps =>
      have hstep := add_message_of_absent store sid p.1 p.2 now hs
      have hseq : appendSeq store sid (p :: ps) now =
          appendSeq ((store.add_message sid p.1 p.2 now).2) sid ps now := rfl
      rw [hseq, hstep]
      obtain ⟨s', hlook, hmsgs⟩ := appendSeq_messages sid now ps
        { store with
          sessions := dictInsert store.sessions sid
            ⟨sid, [⟨parseRole p.1, p.2, now⟩], now, now⟩ }
        ⟨sid, [⟨parseRole p.1, p.2, now⟩], now, now⟩
        (keysNodup_dictInsert _ sid _ hN) (dictLookup_dictInsert_self _ sid _)
        (is_session_valid_updated_now _ _ now rfl)
      refine ⟨s', hlook, ?_⟩
      rw [hmsgs]
      simp only [List.map_cons, List.foldl_cons, clampAppend_nil]

/-! ### Facts about `get_messages`, `create_session`, and the stream closures -/

theorem get_messages_none_of_valid (store : MemoryStore) (sid : Str) (now : Nat)
    (s : ChatSession) (hs : dictLookup store.sessions sid = some s)
    (hv : store.is_session_valid s now = true) :
    store.get_messages sid none now = (s.messages, store) := by
  unfold MemoryStore.get_messages
  rw [get_session_of_valid store sid now s hs hv]

theorem get_messages_limit_of_valid (store : MemoryStore) (sid : Str) (now : Nat)
    (s : ChatSession) (l : Nat) (hl : 0 < l)
    (hs : dictLookup store.sessions sid = some s)
    (hv : store.is_session_valid s now = true) :
    store.get_messages sid (some l) now = (pyLastSlice l s.messages, store) := by
  unfold MemoryStore.get_messages
  rw [get_session_of_valid store sid now s hs hv]
  simp only [hl, if_pos]

theorem create_session_fst (store : MemoryStore) (fresh : Str) (now : Nat) :
    (store.create_session fresh now).1 = fresh := by
  unfold MemoryStore.create_session
  by_cases h : store.max_sessions ≤ store.sessions.length <;> simp [h]

theorem create_session_keysNodup (store : MemoryStore) (fresh : Str) (now : Nat)
    (hN : keysNodup store.sessions) :
    keysNodup ((store.create_session fresh now).2).sessions := by
  unfold MemoryStore.create_session MemoryStore.cleanup_old_sessions
  by_cases h : store.max_sessions ≤ store.sessions.length
  · simp only [h, if_pos]
    exact keysNodup_dictInsert _ fresh _ (keysNodup_filter _ _ hN)
  · simp only [h, if_neg, Bool.false_eq_true]
    exact keysNodup_dictInsert _ fresh _ hN

theorem populateInitial_keeps (sid : Str) (prompt : Str) (now : Nat)
    (req_messages : List (Str × Str)) :
    ∀ store : MemoryStore, keysNodup store.sessions →
      (∃ s, dictLookup store.sessions sid = some s ∧ s.updated_at = now) →
      keysNodup (populateInitial store sid req_messages prompt now).sessions ∧
      (∃ s, dictLookup (populateInitial store sid req_messages prompt now).sessions sid
              = some s ∧ s.updated_at = now) := by
  induction req_messages with
  | nil => intro store hN hinv; exact ⟨hN, hinv⟩
  | cons msg rest ih =>
      intro store hN hinv
      have hstep : populateInitial store sid (msg :: rest) prompt now =
          populateInitial
            (if msg.2 ≠ [] ∧ msg.2 ≠ prompt then
              (store.add_message sid (pyLower msg.1) msg.2 now).2
            else store) sid rest prompt now := by
        unfold populateInitial
        rw [List.foldl_cons]
      rw [hstep]
      by_cases hc : msg.2 ≠ [] ∧ msg.2 ≠ prompt
      · rw [if_pos hc]
        obtain ⟨hN', _, _, _, hex⟩ := add_message_keeps store sid (pyLower msg.1) msg.2 now hN
        exact ih _ hN' ⟨hex.choose, hex.choose_spec⟩
      · rw [if_neg hc]
        exact ih store hN hinv

theorem parseRole_user : parseRole "user".toList = MessageRole.user := by decide

theorem parseRole_assistant : parseRole "assistant".toList = MessageRole.assistant := by decide

theorem eventPayloads_chunks_append (l : List Str) (sid : Str) (es : List Event)
    (hes : eventPayloads es = []) :
    eventPayloads ((l.map (fun c => Event.chunk c sid)) ++ es) = l := by
  induction l with
  | nil => simpa [eventPayloads]
  | cons c cs ih => simpa [eventPayloads] using ih

theorem eventPayloads_doneFull (sid full : Str) (n : Nat) :
    eventPayloads [Event.doneFull sid full n] = [] := rfl

theorem eventPayloads_done (sid : Str) : eventPayloads [Event.done sid] = [] := rfl

theorem create_session_lookup_self (store : MemoryStore) (fresh : Str) (now : Nat) :
    dictLookup ((store.create_session fresh now).2).sessions fresh
      = some ⟨fresh, [], now, now⟩ := by
  unfold MemoryStore.create_session
  by_cases h : store.max_sessions ≤ store.sessions.length <;>
    simp only [h, if_pos, if_neg, Bool.false_eq_true] <;>
    exact dictLookup_dictInsert_self _ fresh _

theorem add_message_of_valid_append (store : MemoryStore) (sid ro content : Str) (now : Nat)
    (s : ChatSession) (hs : dictLookup store.sessions sid = some s)
    (hv : store.is_session_valid s now = true) :
    store.add_message sid ro content now =
      (true, store.appendToSession sid s ⟨parseRole ro, content, now⟩ now) := by
  rw [add_message_of_valid store sid ro content now s hs hv]
  rfl

theorem add_message_object_of_valid_append (store : MemoryStore) (sid : Str)
    (m : ChatMessage) (now : Nat) (s : ChatSession)
    (hs : dictLookup store.sessions sid = some s)
    (hv : store.is_session_valid s now = true) :
    store.add_message_object sid m now =
      (true, store.appendToSession sid s m now) := by
  rw [add_message_object_of_valid store sid m now s hs hv]
  rfl

theorem appendToSession_lookup (store : MemoryStore) (sid : Str) (s : ChatSession)
    (m : ChatMessage) (now : Nat) :
    dictLookup (store.appendToSession sid s m now).sessions sid =
      some { s with
             messages := clampAppend store.max_messages_per_session s.messages m,
             updated_at := now } :=
  dictLookup_dictInsert_self _ sid _

theorem get_messages_appendToSession (store : MemoryStore) (sid : Str) (s : ChatSession)
    (m : ChatMessage) (now : Nat) :
    (store.appendToSession sid s m now).get_messages sid none now =
      (clampAppend store.max_messages_per_session s.messages m,
       store.appendToSession sid s m now) :=
  get_messages_none_of_valid _ sid now _ (appendToSession_lookup store sid s m now)
    (is_session_valid_updated_now _ _ now rfl)

theorem stream_chat_finish_eq (store : MemoryStore) (sid : Str)
    (history : List ChatMessage) (prompt : Str) (pc : List Str) (err : Option Str)
    (now : Nat) (s : ChatSession)
    (hs : dictLookup store.sessions sid = some s) (hu : s.updated_at = now) :
    stream_chat_finish store sid history prompt pc err now =
      ⟨((generate_streaming_response prompt
            (if 1 < history.length then history.dropLast else []) pc err).map
          (fun c => Event.chunk c sid))
        ++ [Event.doneFull sid
              (concatStr (generate_streaming_response prompt
                (if 1 < history.length then history.dropLast else []) pc err))
              (clampAppend store.max_messages_per_session s.messages
                ⟨MessageRole.assistant,
                 concatStr (generate_streaming_response prompt
                   (if 1 < history.length then history.dropLast else []) pc err),
                 now⟩).length],
       (if 1 < history.length then history.dropLast else []), sid,
       store.appendToSession sid s
         ⟨MessageRole.assistant,
          concatStr (generate_streaming_response prompt
            (if 1 < history.length then history.dropLast else []) pc err), now⟩ now⟩ := by
  have hv := is_session_valid_updated_now store s now hu
  have hadd := add_message_of_valid_append store sid "assistant".toList
    (concatStr (generate_streaming_response prompt
      (if 1 < history.length then history.dropLast else []) pc err)) now s hs hv
  rw [parseRole_assistant] at hadd
  have hget := get_messages_appendToSession store sid s
    ⟨MessageRole.assistant,
     concatStr (generate_streaming_response prompt
       (if 1 < history.length then history.dropLast else []) pc err), now⟩ now
  simp only [stream_chat_finish, hadd, hget]

theorem stream_chat_generate_spec (store : MemoryStore) (sid : Str)
    (req_messages : List (Str × Str)) (prompt : Str) (pc : List Str) (err : Option Str)
    (now : Nat) (hN : keysNodup store.sessions) (s : ChatSession)
    (hs : dictLookup store.sessions sid = some s) (hu : s.updated_at = now) :
    ∃ (ctx : List ChatMessage) (st : MemoryStore) (s3 : ChatSession),
      stream_chat_generate store sid req_messages prompt pc err now =
        ⟨((generate_streaming_response prompt ctx pc err).map (fun c => Event.chunk c sid))
          ++ [Event.doneFull sid (concatStr (generate_streaming_response prompt ctx pc err))
                s3.messages.length],
         ctx, sid, st⟩ ∧
      dictLookup st.sessions sid = some s3 ∧
      s3.messages.getLast? =
        some ⟨MessageRole.assistant,
          concatStr (generate_streaming_response prompt ctx pc err), now⟩ := by
  have hv := is_session_valid_updated_now store s now hu
  have h1 := get_messages_none_of_valid store sid now s hs hv
  by_cases hb : s.messages.length = 1 ∧ req_messages ≠ []
  · obtain ⟨hN2, s2, hs2, hu2⟩ :=
      populateInitial_keeps sid prompt now req_messages store hN ⟨s, hs, hu⟩
    have h2 := get_messages_none_of_valid (populateInitial store sid req_messages prompt now)
      sid now s2 hs2 (is_session_valid_updated_now _ _ now hu2)
    have hfin := stream_chat_finish_eq (populateInitial store sid req_messages prompt now)
      sid s2.messages prompt pc err now s2 hs2 hu2
    have hmid : stream_chat_generate store sid req_messages prompt pc err now =
        stream_chat_finish (populateInitial store sid req_messages prompt now) sid
          s2.messages prompt pc err now := by
      simp only [stream_chat_generate, h1]
      rw [if_pos hb, h2]
    exact ⟨(if 1 < s2.messages.length then s2.messages.dropLast else []), _,
      { s2 with
        messages := clampAppend
          (populateInitial store sid req_messages prompt now).max_messages_per_session
          s2.messages
          ⟨MessageRole.assistant,
           concatStr (generate_streaming_response prompt
             (if 1 < s2.messages.length then s2.messages.dropLast else []) pc err), now⟩,
        updated_at := now },
      hmid.trans hfin, appendToSession_lookup _ _ _ _ _, clampAppend_getLast _ _ _⟩
  · have hfin := stream_chat_finish_eq store sid s.messages prompt pc err now s hs hu
    have hmid : stream_chat_generate store sid req_messages prompt pc err now =
        stream_chat_finish store sid s.messages prompt pc err now := by
      simp only [stream_chat_generate, h1]
      rw [if_neg hb]
    exact ⟨(if 1 < s.messages.length then s.messages.dropLast else []), _,
      { s with
        messages := clampAppend store.max_messages_per_session s.messages
          ⟨MessageRole.assistant,
           concatStr (generate_streaming_response prompt
             (if 1 < s.messages.length then s.messages.dropLast else []) pc err), now⟩,
        updated_at := now },
      hmid.trans hfin, appendToSession_lookup _ _ _ _ _, clampAppend_getLast _ _ _⟩

theorem chat_stream_generate_eq (store : MemoryStore) (sid message : Str) (pc : List Str)
    (err : Option Str) (now : Nat) (s : ChatSession)
    (hs : dictLookup store.sessions sid = some s) (hu : s.updated_at = now) :
    chat_stream_generate store sid message pc err now =
      ⟨((generate_streaming_response message ((pyLastSlice 20 s.messages).dropLast) pc err).map
          (fun c => Event.chunk c sid)) ++ [Event.done sid],
       (pyLastSlice 20 s.messages).dropLast, sid,
       store.appendToSession sid s
         ⟨MessageRole.assistant,
          concatStr (generate_streaming_response message
            ((pyLastSlice 20 s.messages).dropLast) pc err), now⟩ now⟩ := by
  have hv := is_session_valid_updated_now store s now hu
  have h1 := get_messages_limit_of_valid store sid now s 20 (by omega) hs hv
  have hadd := add_message_object_of_valid_append store sid
    ⟨MessageRole.assistant,
     concatStr (generate_streaming_response message
       ((pyLastSlice 20 s.messages).dropLast) pc err), now⟩ now s hs hv
  simp only [chat_stream_generate, h1, hadd]

theorem stream_chat_route_some (store : MemoryStore) (req_messages : List (Str × Str))
    (prompt : Str) (sid fresh : Str) (pc : List Str) (err : Option Str) (now : Nat) :
    stream_chat_route store req_messages prompt (some sid) fresh pc err now =
      stream_chat_generate ((store.add_message sid "user".toList prompt now).2) sid
        req_messages prompt pc err now := rfl

theorem stream_chat_route_none (store : MemoryStore) (req_messages : List (Str × Str))
    (prompt : Str) (fresh : Str) (pc : List Str) (err : Option Str) (now : Nat) :
    stream_chat_route store req_messages prompt none fresh pc err now =
      stream_chat_generate
        ((((store.create_session fresh now).2).add_message
            ((store.create_session fresh now).1) "user".toList prompt now).2)
        ((store.create_session fresh now).1) req_messages prompt pc err now := rfl

theorem chat_stream_route_none (store : MemoryStore) (message fresh : Str) (pc : List Str)
    (err : Option Str) (now : Nat) :
    chat_stream_route store message none fresh pc err now =
      some (chat_stream_generate
        ((((store.create_session fresh now).2).add_message_object
            ((store.create_session fresh now).1) ⟨MessageRole.user, message, now⟩ now).2)
        ((store.create_session fresh now).1) message pc err now) := rfl

theorem chat_stream_route_some_of_valid (store : MemoryStore) (message : Str) (sid fresh : Str)
    (pc : List Str) (err : Option Str) (now : Nat) (s : ChatSession)
    (hs : dictLookup store.sessions sid = some s)
    (hv : store.is_session_valid s now = true) :
    chat_stream_route store message (some sid) fresh pc err now =
      some (chat_stream_generate
        ((store.add_message_object sid ⟨MessageRole.user, message, now⟩ now).2)
        sid message pc err now) := by
  simp only [chat_stream_route, get_session_of_valid store sid now s hs hv]

theorem clampAppend_of_le (k : Nat) (l : List ChatMessage) (m : ChatMessage)
    (h : l.length + 1 ≤ k) : clampAppend k l m = l ++ [m] := by
  unfold clampAppend
  rw [if_neg]
  simp only [List.length_append, List.length_cons, List.length_nil]
  omega

theorem ctx_of_append (M : List ChatMessage) (u : ChatMessage) :
    (if 1 < (M ++ [u]).length then (M ++ [u]).dropLast else []) = M := by
  cases M with
  | nil => simp
  | cons a as =>
      rw [if_pos (by simp only [List.length_append, List.length_cons]; omega)]
      exact List.dropLast_concat

theorem stream_chat_route_existing (store : MemoryStore) (prompt : Str) (sid fresh : Str)
    (pc : List Str) (err : Option Str) (now : Nat) (s : ChatSession)
    (hs : dictLookup store.sessions sid = some s)
    (hv : store.is_session_valid s now = true)
    (hlen : s.messages.length + 2 ≤ store.max_messages_per_session) :
    stream_chat_route store [] prompt (some sid) fresh pc err now =
      ⟨((generate_streaming_response prompt s.messages pc err).map
          (fun c => Event.chunk c sid))
        ++ [Event.doneFull sid
              (concatStr (generate_streaming_response prompt s.messages pc err))
              (s.messages.length + 1 + 1)],
       s.messages, sid,
       { store with
         sessions := dictInsert store.sessions sid
           { s with
             messages := s.messages ++
               [⟨MessageRole.user, prompt, now⟩,
                ⟨MessageRole.assistant,
                 concatStr (generate_streaming_response prompt s.messages pc err), now⟩],
             updated_at := now } }⟩ := by
  have haddu := add_message_of_valid_append store sid "user".toList prompt now s hs hv
  rw [parseRole_user] at haddu
  have hclu : clampAppend store.max_messages_per_session s.messages
      ⟨MessageRole.user, prompt, now⟩ = s.messages ++ [⟨MessageRole.user, prompt, now⟩] :=
    clampAppend_of_le _ _ _ (by omega)
  have hstep1 : stream_chat_route store [] prompt (some sid) fresh pc err now =
      stream_chat_generate (store.appendToSession sid s ⟨MessageRole.user, prompt, now⟩ now)
        sid [] prompt pc err now := by
    rw [stream_chat_route_some, haddu]
  have hget := get_messages_appendToSession store sid s ⟨MessageRole.user, prompt, now⟩ now
  have hstep2 : stream_chat_generate
      (store.appendToSession sid s ⟨MessageRole.user, prompt, now⟩ now)
      sid [] prompt pc err now =
      stream_chat_finish (store.appendToSession sid s ⟨MessageRole.user, prompt, now⟩ now)
        sid (clampAppend store.max_messages_per_session s.messages
          ⟨MessageRole.user, prompt, now⟩) prompt pc err now := by
    simp only [stream_chat_generate, hget]
    rw [if_neg (by simp)]
  have hfin := stream_chat_finish_eq
    (store.appendToSession sid s ⟨MessageRole.user, prompt, now⟩ now) sid
    (clampAppend store.max_messages_per_session s.messages ⟨MessageRole.user, prompt, now⟩)
    prompt pc err now
    { s with
      messages := clampAppend store.max_messages_per_session s.messages
        ⟨MessageRole.user, prompt, now⟩,
      updated_at := now }
    (appendToSession_lookup store sid s ⟨MessageRole.user, prompt, now⟩ now) rfl
  rw [hstep1, hstep2, hfin]
  rw [hclu, ctx_of_append]
  have hcla : clampAppend store.max_messages_per_session
      (s.messages ++ [⟨MessageRole.user, prompt, now⟩])
      ⟨MessageRole.assistant,
       concatStr (generate_streaming_response prompt s.messages pc err), now⟩ =
      (s.messages ++ [⟨MessageRole.user, prompt, now⟩]) ++
        [⟨MessageRole.assistant,
          concatStr (generate_streaming_response prompt s.messages pc err), now⟩] :=
    clampAppend_of_le _ _ _ (by simp only [List.length_append, List.length_cons, List.length_nil]; omega)
  simp only [MemoryStore.appendToSession, hclu, hcla, dictInsert_dictInsert,
    List.length_append, List.length_cons, List.length_nil, List.append_assoc,
    List.singleton_append, List.cons_append, List.nil_append]

/-! ### Concatenation preservation of the regular-text re-chunking -/

theorem splitSpace_ne_nil (s : Str) : splitSpace s ≠ [] := by
  induction s with
  | nil => simp [splitSpace]
  | cons c rest ih =>
      unfold splitSpace
      by_cases hc : c = ' '
      · simp [hc]
      · rw [if_neg hc]
        cases hsp : splitSpace rest with
        | nil => exact absurd hsp ih
        | cons w ws => simp

theorem joinSpace_cons (w : Str) (ws : List Str) (h : ws ≠ []) :
    joinSpace (w :: ws) = w ++ ' ' :: joinSpace ws := by
  cases ws with
  | nil => exact absurd rfl h
  | cons w' ws' => rfl

theorem joinSpace_splitSpace (s : Str) : joinSpace (splitSpace s) = s := by
  induction s with
  | nil => rfl
  | cons c rest ih =>
      unfold splitSpace
      by_cases hc : c = ' '
      · rw [if_pos hc, joinSpace_cons [] (splitSpace rest) (splitSpace_ne_nil rest)]
        simp [hc, ih]
      · rw [if_neg hc]
        cases hsp : splitSpace rest with
        | nil => exact absurd hsp (splitSpace_ne_nil rest)
        | cons w ws =>
            rw [hsp] at ih
            cases ws with
            | nil =>
                simp only [joinSpace] at ih ⊢
                rw [ih]
            | cons w' ws' =>
                rw [joinSpace_cons (c :: w) (w' :: ws') (by simp),
                    joinSpace_cons w (w' :: ws') (by simp)] at *
                rw [List.cons_append, ih]

theorem chunkWords_cons_cons (cur w r : Str) (rs : List Str) :
    chunkWords cur (w :: r :: rs) =
      if pyTruthyStrip (cur ++ w ++ [' ']) || hasPunct w then
        (cur ++ w ++ [' ']) :: chunkWords [] (r :: rs)
      else chunkWords (cur ++ w ++ [' ']) (r :: rs) := rfl

theorem chunkWords_concat (ws : List Str) :
    ∀ cur : Str, ws ≠ [] → concatStr (chunkWords cur ws) = cur ++ joinSpace ws := by
  induction ws with
  | nil => intro cur h; exact absurd rfl h
  | cons w rest ih =>
      intro cur _
      cases hrest : rest with
      | nil => simp [chunkWords, concatStr, joinSpace]
      | cons r rs =>
          subst hrest
          rw [chunkWords_cons_cons]
          by_cases hy : (pyTruthyStrip (cur ++ w ++ [' ']) || hasPunct w) = true
          · rw [if_pos hy]
            have h2 := ih [] (by simp)
            simp only [concatStr, List.flatten_cons] at h2 ⊢
            rw [h2, joinSpace_cons w (r :: rs) (by simp)]
            simp
          · rw [if_neg hy]
            have h2 := ih (cur ++ w ++ [' ']) (by simp)
            rw [h2, joinSpace_cons w (r :: rs) (by simp)]
            simp

theorem chat_stream_route_some_of_absent (store : MemoryStore) (message : Str)
    (sid fresh : Str) (pc : List Str) (err : Option Str) (now : Nat)
    (hs : dictLookup store.sessions sid = none) :
    chat_stream_route store message (some sid) fresh pc err now = none := by
  simp only [chat_stream_route, get_session_of_absent store sid now hs]

theorem chat_stream_route_some_of_expired (store : MemoryStore) (message : Str)
    (sid fresh : Str) (pc : List Str) (err : Option Str) (now : Nat) (s : ChatSession)
    (hs : dictLookup store.sessions sid = some s)
    (hv : store.is_session_valid s now = false) :
    chat_stream_route store message (some sid) fresh pc err now = none := by
  simp only [chat_stream_route, get_session_of_expired store sid now s hs hv]

/-- A sequence of `add_message` calls under pairwise-distinct ids that are
all absent from the store (the auto-creation path each time). -/
def addSeqFreshIds (store : MemoryStore) (ids : List Str) (ro content : Str) (now : Nat) :
    MemoryStore :=
  ids.foldl (fun st i => (st.add_message i ro content now).2) store

theorem addSeqFreshIds_count (ro content : Str) (now : Nat) (ids : List Str) :
    ∀ store : MemoryStore, keysNodup store.sessions → ids.Nodup →
      (∀ i ∈ ids, dictLookup store.sessions i = none) →
      (addSeqFreshIds store ids ro content now).sessions.length
        = store.sessions.length + ids.length := by
  induction ids with
  | nil => intro store _ _ _; rfl
  | cons i is ih =>
      intro store hN hnd hfresh
      have hi : dictLookup store.sessions i = none := hfresh i (List.mem_cons_self i is)
      have hstep : addSeqFreshIds store (i :: is) ro content now =
          addSeqFreshIds ((store.add_message i ro content now).2) is ro content now := rfl
      rw [hstep]
      obtain ⟨hN1, -, -, -, -⟩ := add_message_keeps store i ro content now hN
      have hfresh1 : ∀ j ∈ is,
          dictLookup ((store.add_message i ro content now).2).sessions j = none := by
        intro j hj
        have hji : j ≠ i := by
          rintro rfl
          exact (List.nodup_cons.mp hnd).1 hj
        rw [add_message_lookup_ne store i ro content now j hN hji]
        exact hfresh j (List.mem_cons_of_mem _ hj)
      rw [ih _ hN1 (List.nodup_cons.mp hnd).2 hfresh1,
          add_message_count_fresh store i ro content now hi]
      simp only [List.length_cons]
      omega

/-! ## The claims -/

/-- C2: for every session and every sequence of `add_message` calls on it
(started on a fresh id, with a positive message cap), after the calls
`len(session.messages) ≤ max_messages_per_session` and the retained
messages are exactly the most recently appended ones, in append order
(the suffix of the appended sequence). Since the statement holds for every
sequence, it holds for every prefix, i.e. after each call. -/
theorem C2_per_session_message_cap (store : MemoryStore) (sid : Str)
    (pairs : List (Str × Str)) (now : Nat)
    (hN : keysNodup store.sessions)
    (hs : dictLookup store.sessions sid = none)
    (hk : 1 ≤ store.max_messages_per_session)
    (hne : pairs ≠ []) :
    ∃ s, dictLookup (appendSeq store sid pairs now).sessions sid = some s ∧
      s.messages = (pairs.map (fun p => (⟨parseRole p.1, p.2, now⟩ : ChatMessage))).drop
          (pairs.length - store.max_messages_per_session) ∧
      s.messages.length ≤ store.max_messages_per_session := by
  obtain ⟨s', hlook, hmsgs⟩ := appendSeq_of_fresh store sid pairs now hN hs hne
  have hlen : (pairs.map (fun p => (⟨parseRole p.1, p.2, now⟩ : ChatMessage))).length
      = pairs.length := List.length_map _ _
  refine ⟨s', hlook, ?_, ?_⟩
  · rw [hmsgs, foldl_clampAppend _ hk, hlen]
  · rw [hmsgs, foldl_clampAppend _ hk, List.length_drop, hlen]
    omega

/-- Witness for C2: Scenario A — cap 5, eight appends (alternating
user/assistant) on a fresh session of an empty store; exactly the last
five appends (#4–#8) are retained, in order. -/
theorem C2_per_session_message_cap_witness :
    (keysNodup (⟨[], 1000, 24, 5⟩ : MemoryStore).sessions ∧
     dictLookup (⟨[], 1000, 24, 5⟩ : MemoryStore).sessions "s".toList = none ∧
     1 ≤ (⟨[], 1000, 24, 5⟩ : MemoryStore).max_messages_per_session ∧
     ([("user".toList, "m1".toList), ("assistant".toList, "m2".toList),
       ("user".toList, "m3".toList), ("assistant".toList, "m4".toList),
       ("user".toList, "m5".toList), ("assistant".toList, "m6".toList),
       ("user".toList, "m7".toList), ("assistant".toList, "m8".toList)] :
         List (Str × Str)) ≠ []) ∧
    (∃ s, dictLookup (appendSeq (⟨[], 1000, 24, 5⟩ : MemoryStore) "s".toList
          [("user".toList, "m1".toList), ("assistant".toList, "m2".toList),
           ("user".toList, "m3".toList), ("assistant".toList, "m4".toList),
           ("user".toList, "m5".toList), ("assistant".toList, "m6".toList),
           ("user".toList, "m7".toList), ("assistant".toList, "m8".toList)] 7).sessions
        "s".toList = some s ∧
      s.messages = (([("user".toList, "m1".toList), ("assistant".toList, "m2".toList),
           ("user".toList, "m3".toList), ("assistant".toList, "m4".toList),
           ("user".toList, "m5".toList), ("assistant".toList, "m6".toList),
           ("user".toList, "m7".toList), ("assistant".toList, "m8".toList)].map
          (fun p => (⟨parseRole p.1, p.2, 7⟩ : ChatMessage))).drop
          ([("user".toList, "m1".toList), ("assistant".toList, "m2".toList),
           ("user".toList, "m3".toList), ("assistant".toList, "m4".toList),
           ("user".toList, "m5".toList), ("assistant".toList, "m6".toList),
           ("user".toList, "m7".toList), ("assistant".toList, "m8".toList)].length - 5)) ∧
      s.messages.length ≤ 5) :=
  ⟨⟨by decide, by decide, by decide, by decide⟩,
   C2_per_session_message_cap (⟨[], 1000, 24, 5⟩ : MemoryStore) "s".toList
     [("user".toList, "m1".toList), ("assistant".toList, "m2".toList),
      ("user".toList, "m3".toList), ("assistant".toList, "m4".toList),
      ("user".toList, "m5".toList), ("assistant".toList, "m6".toList),
      ("user".toList, "m7".toList), ("assistant".toList, "m8".toList)] 7
     (by decide) (by decide) (by decide) (by decide)⟩

/-- C9: `add_message` always reports success (returns `true`) whatever the
session id names; an unknown id is auto-created with that exact id and ends
up with exactly one message, and an expired id is likewise replaced by a
fresh session holding exactly the one appended message. -/
theorem C9_append_never_not_found (store : MemoryStore) (sid ro content : Str) (now : Nat)
    (hN : keysNodup store.sessions) :
    (store.add_message sid ro content now).1 = true ∧
    (dictLookup store.sessions sid = none →
      dictLookup ((store.add_message sid ro content now).2).sessions sid =
        some ⟨sid, [⟨parseRole ro, content, now⟩], now, now⟩) ∧
    (∀ s, dictLookup store.sessions sid = some s →
      store.is_session_valid s now = false →
      dictLookup ((store.add_message sid ro content now).2).sessions sid =
        some ⟨sid, [⟨parseRole ro, content, now⟩], now, now⟩) := by
  refine ⟨add_message_true store sid ro content now hN, fun hs => ?_, fun s hs hv => ?_⟩
  · rw [add_message_of_absent store sid ro content now hs]
    exact dictLookup_dictInsert_self _ sid _
  · rw [add_message_of_expired store sid ro content now s hN hs hv]
    exact dictLookup_dictInsert_self _ sid _

/-- Witness for C9: Scenario B — no session is created explicitly;
`add_message("abc", "user", "hi")` on an empty store succeeds and leaves a
session `"abc"` with exactly one (user) message. -/
theorem C9_append_never_not_found_witness :
    keysNodup (⟨[], 1000, 24, 5⟩ : MemoryStore).sessions ∧
    (((⟨[], 1000, 24, 5⟩ : MemoryStore).add_message "abc".toList "user".toList
        "hi".toList 0).1 = true ∧
     (dictLookup (⟨[], 1000, 24, 5⟩ : MemoryStore).sessions "abc".toList = none →
       dictLookup (((⟨[], 1000, 24, 5⟩ : MemoryStore).add_message "abc".toList
           "user".toList "hi".toList 0).2).sessions "abc".toList =
         some ⟨"abc".toList, [⟨parseRole "user".toList, "hi".toList, 0⟩], 0, 0⟩) ∧
     (∀ s, dictLookup (⟨[], 1000, 24, 5⟩ : MemoryStore).sessions "abc".toList = some s →
       (⟨[], 1000, 24, 5⟩ : MemoryStore).is_session_valid s 0 = false →
       dictLookup (((⟨[], 1000, 24, 5⟩ : MemoryStore).add_message "abc".toList
           "user".toList "hi".toList 0).2).sessions "abc".toList =
         some ⟨"abc".toList, [⟨parseRole "user".toList, "hi".toList, 0⟩], 0, 0⟩)) :=
  ⟨by decide,
   C9_append_never_not_found (⟨[], 1000, 24, 5⟩ : MemoryStore) "abc".toList
     "user".toList "hi".toList 0 (by decide)⟩

/-- C10: the auto-creation path performs no capacity check and no eviction:
a sequence of `add_message` calls under pairwise-distinct fresh ids grows
`sessionCount` by exactly the number of calls, so a store already at
`max_sessions` is pushed past the limit without bound. -/
theorem C10_auto_create_bypasses_capacity (store : MemoryStore) (ids : List Str)
    (ro content : Str) (now : Nat) (hN : keysNodup store.sessions)
    (hnd : ids.Nodup) (hfresh : ∀ i ∈ ids, dictLookup store.sessions i = none) :
    (addSeqFreshIds store ids ro content now).get_session_count
      = store.get_session_count + ids.length ∧
    (store.max_sessions ≤ store.get_session_count → ids ≠ [] →
      store.max_sessions < (addSeqFreshIds store ids ro content now).get_session_count) := by
  have h := addSeqFreshIds_count ro content now ids store hN hnd hfresh
  refine ⟨h, fun hcap hne => ?_⟩
  have hlen : 1 ≤ ids.length := by
    cases ids with
    | nil => exact absurd rfl hne
    | cons i is => simp
  unfold MemoryStore.get_session_count at h hcap ⊢
  omega

/-- Witness for C10: a store at capacity (`max_sessions = 1`, one live
session) accepts two further `add_message` calls on fresh ids "b", "c" and
ends with three sessions — strictly above the limit. -/
theorem C10_auto_create_bypasses_capacity_witness :
    (keysNodup (⟨[("a".toList, ⟨"a".toList, [], 0, 0⟩)], 1, 100, 5⟩ :
        MemoryStore).sessions ∧
     (["b".toList, "c".toList] : List Str).Nodup ∧
     (∀ i ∈ (["b".toList, "c".toList] : List Str),
       dictLookup (⟨[("a".toList, ⟨"a".toList, [], 0, 0⟩)], 1, 100, 5⟩ :
          MemoryStore).sessions i = none)) ∧
    ((addSeqFreshIds (⟨[("a".toList, ⟨"a".toList, [], 0, 0⟩)], 1, 100, 5⟩ : MemoryStore)
        ["b".toList, "c".toList] "user".toList "x".toList 0).get_session_count
      = (⟨[("a".toList, ⟨"a".toList, [], 0, 0⟩)], 1, 100, 5⟩ :
          MemoryStore).get_session_count + 2 ∧
     ((⟨[("a".toList, ⟨"a".toList, [], 0, 0⟩)], 1, 100, 5⟩ : MemoryStore).max_sessions ≤
        (⟨[("a".toList, ⟨"a".toList, [], 0, 0⟩)], 1, 100, 5⟩ :
          MemoryStore).get_session_count →
      (["b".toList, "c".toList] : List Str) ≠ [] →
      (⟨[("a".toList, ⟨"a".toList, [], 0, 0⟩)], 1, 100, 5⟩ : MemoryStore).max_sessions <
        (addSeqFreshIds (⟨[("a".toList, ⟨"a".toList, [], 0, 0⟩)], 1, 100, 5⟩ : MemoryStore)
          ["b".toList, "c".toList] "user".toList "x".toList 0).get_session_count)) :=
  ⟨⟨by decide, by decide, by decide⟩,
   C10_auto_create_bypasses_capacity
     (⟨[("a".toList, ⟨"a".toList, [], 0, 0⟩)], 1, 100, 5⟩ : MemoryStore)
     ["b".toList, "c".toList] "user".toList "x".toList 0
     (by decide) (by decide) (by decide)⟩

/-- C5: `get_session` returns a stored session only while
`now - updated_at ≤ session_timeout`; on an expired session it deletes the
entry as a side effect (the id no longer resolves, and the session count
drops by one) and reports not-found; and a session it does return always
satisfies the freshness bound — callers never observe an expired session. -/
theorem C5_lazy_expiry (store : MemoryStore) (sid : Str) (now : Nat) (s : ChatSession)
    (hN : keysNodup store.sessions)
    (hs : dictLookup store.sessions sid = some s) :
    (store.is_session_valid s now = true → store.get_session sid now = (some s, store)) ∧
    (store.is_session_valid s now = false →
      (store.get_session sid now).1 = none ∧
      dictLookup ((store.get_session sid now).2).sessions sid = none ∧
      ((store.get_session sid now).2).get_session_count + 1 = store.get_session_count) ∧
    (∀ s', (store.get_session sid now).1 = some s' →
      now - s'.updated_at ≤ store.session_timeout) := by
  refine ⟨fun hv => get_session_of_valid store sid now s hs hv, fun hv => ?_, fun s' h => ?_⟩
  · rw [get_session_of_expired store sid now s hs hv]
    exact ⟨rfl, dictLookup_dictErase_self _ sid hN,
      length_dictErase_of_lookup_some _ sid s hs⟩
  · cases hv : store.is_session_valid s now with
    | true =>
        rw [get_session_of_valid store sid now s hs hv] at h
        have hss : s = s' := by injection h
        subst hss
        exact of_decide_eq_true hv
    | false =>
        rw [get_session_of_expired store sid now s hs hv] at h
        exact absurd h (by simp)

/-- Witness for C5: Scenario C — a store whose only session "a" was last
updated at time 0 with a TTL of 10; read at time 100 the session is
expired, so `get_session` returns not-found, the id stops resolving, and
the session count drops from 1 to 0. -/
theorem C5_lazy_expiry_witness :
    (keysNodup (⟨[("a".toList, ⟨"a".toList, [], 0, 0⟩)], 1000, 10, 5⟩ :
        MemoryStore).sessions ∧
     dictLookup (⟨[("a".toList, ⟨"a".toList, [], 0, 0⟩)], 1000, 10, 5⟩ :
        MemoryStore).sessions "a".toList = some ⟨"a".toList, [], 0, 0⟩) ∧
    (((⟨[("a".toList, ⟨"a".toList, [], 0, 0⟩)], 1000, 10, 5⟩ :
        MemoryStore).is_session_valid ⟨"a".toList, [], 0, 0⟩ 100 = true →
      (⟨[("a".toList, ⟨"a".toList, [], 0, 0⟩)], 1000, 10, 5⟩ :
        MemoryStore).get_session "a".toList 100 =
        (some ⟨"a".toList, [], 0, 0⟩,
         (⟨[("a".toList, ⟨"a".toList, [], 0, 0⟩)], 1000, 10, 5⟩ : MemoryStore))) ∧
     ((⟨[("a".toList, ⟨"a".toList, [], 0, 0⟩)], 1000, 10, 5⟩ :
        MemoryStore).is_session_valid ⟨"a".toList, [], 0, 0⟩ 100 = false →
      ((⟨[("a".toList, ⟨"a".toList, [], 0, 0⟩)], 1000, 10, 5⟩ :
          MemoryStore).get_session "a".toList 100).1 = none ∧
      dictLookup (((⟨[("a".toList, ⟨"a".toList, [], 0, 0⟩)], 1000, 10, 5⟩ :
          MemoryStore).get_session "a".toList 100).2).sessions "a".toList = none ∧
      (((⟨[("a".toList, ⟨"a".toList, [], 0, 0⟩)], 1000, 10, 5⟩ :
          MemoryStore).get_session "a".toList 100).2).get_session_count + 1 =
        (⟨[("a".toList, ⟨"a".toList, [], 0, 0⟩)], 1000, 10, 5⟩ :
          MemoryStore).get_session_count) ∧
     (∀ s', ((⟨[("a".toList, ⟨"a".toList, [], 0, 0⟩)], 1000, 10, 5⟩ :
          MemoryStore).get_session "a".toList 100).1 = some s' →
       100 - s'.updated_at ≤ (⟨[("a".toList, ⟨"a".toList, [], 0, 0⟩)], 1000, 10, 5⟩ :
          MemoryStore).session_timeout)) :=
  ⟨⟨by decide, by decide⟩,
   C5_lazy_expiry (⟨[("a".toList, ⟨"a".toList, [], 0, 0⟩)], 1000, 10, 5⟩ : MemoryStore)
     "a".toList 100 ⟨"a".toList, [], 0, 0⟩ (by decide) (by decide)⟩

/-- C6 counterexample: a store at capacity (`max_sessions = 1`) whose only
session is NOT expired; `create_session` still inserts, leaving
`sessionCount = 2 > max_sessions` — the claimed invariant
`len(sessions) ≤ maxSessions` immediately after creation is false, and no
capacity-error condition is raised (the operation returns normally). -/
theorem C6_counterexample :
    (⟨[("a".toList, ⟨"a".toList, [], 0, 0⟩)], 1, 100, 5⟩ : MemoryStore).max_sessions <
      (((⟨[("a".toList, ⟨"a".toList, [], 0, 0⟩)], 1, 100, 5⟩ : MemoryStore).create_session
          "b".toList 0).2).get_session_count := by decide

/-- C6 (amended): a `create_session` call on a store at capacity first
evicts exactly the TTL-expired sessions, then inserts unconditionally;
`sessionCount ≤ maxSessions` holds after the creation precisely when the
eviction brought the count below the limit, and otherwise the limit is
exceeded silently (the operation still inserts and returns normally — no
capacity-error condition exists). -/
theorem C6_capacity_eviction (store : MemoryStore) (fresh : Str) (now : Nat)
    (hcap : store.max_sessions ≤ store.sessions.length)
    (hfresh : dictLookup store.sessions fresh = none) :
    ((store.create_session fresh now).2).sessions =
      dictInsert ((store.cleanup_old_sessions now).sessions) fresh ⟨fresh, [], now, now⟩ ∧
    ((store.cleanup_old_sessions now).sessions.length < store.max_sessions →
      ((store.create_session fresh now).2).get_session_count ≤ store.max_sessions) ∧
    (store.max_sessions ≤ (store.cleanup_old_sessions now).sessions.length →
      store.max_sessions < ((store.create_session fresh now).2).get_session_count) := by
  have hlen : ((store.create_session fresh now).2).sessions.length
      = (store.cleanup_old_sessions now).sessions.length + 1 := by
    simp only [MemoryStore.create_session, if_pos hcap]
    exact length_dictInsert_of_lookup_none _ fresh _
      (dictLookup_filter_none _ fresh _ hfresh)
  refine ⟨?_, fun h => ?_, fun h => ?_⟩
  · simp only [MemoryStore.create_session, if_pos hcap]
  · unfold MemoryStore.get_session_count
    omega
  · unfold MemoryStore.get_session_count
    omega

/-- Witness for C6 (amended): a full store (`max_sessions = 1`) whose only
session is expired at read time 100 (TTL 10): creation evicts it and the
final count is 1 ≤ 1. -/
theorem C6_capacity_eviction_witness :
    ((⟨[("a".toList, ⟨"a".toList, [], 0, 0⟩)], 1, 10, 5⟩ : MemoryStore).max_sessions ≤
       (⟨[("a".toList, ⟨"a".toList, [], 0, 0⟩)], 1, 10, 5⟩ :
         MemoryStore).sessions.length ∧
     dictLookup (⟨[("a".toList, ⟨"a".toList, [], 0, 0⟩)], 1, 10, 5⟩ :
        MemoryStore).sessions "b".toList = none) ∧
    ((((⟨[("a".toList, ⟨"a".toList, [], 0, 0⟩)], 1, 10, 5⟩ : MemoryStore).create_session
          "b".toList 100).2).sessions =
        dictInsert (((⟨[("a".toList, ⟨"a".toList, [], 0, 0⟩)], 1, 10, 5⟩ :
            MemoryStore).cleanup_old_sessions 100).sessions) "b".toList
          ⟨"b".toList, [], 100, 100⟩ ∧
     (((⟨[("a".toList, ⟨"a".toList, [], 0, 0⟩)], 1, 10, 5⟩ :
          MemoryStore).cleanup_old_sessions 100).sessions.length <
        (⟨[("a".toList, ⟨"a".toList, [], 0, 0⟩)], 1, 10, 5⟩ : MemoryStore).max_sessions →
      (((⟨[("a".toList, ⟨"a".toList, [], 0, 0⟩)], 1, 10, 5⟩ : MemoryStore).create_session
          "b".toList 100).2).get_session_count ≤
        (⟨[("a".toList, ⟨"a".toList, [], 0, 0⟩)], 1, 10, 5⟩ : MemoryStore).max_sessions) ∧
     ((⟨[("a".toList, ⟨"a".toList, [], 0, 0⟩)], 1, 10, 5⟩ : MemoryStore).max_sessions ≤
        ((⟨[("a".toList, ⟨"a".toList, [], 0, 0⟩)], 1, 10, 5⟩ :
           MemoryStore).cleanup_old_sessions 100).sessions.length →
      (⟨[("a".toList, ⟨"a".toList, [], 0, 0⟩)], 1, 10, 5⟩ : MemoryStore).max_sessions <
        (((⟨[("a".toList, ⟨"a".toList, [], 0, 0⟩)], 1, 10, 5⟩ : MemoryStore).create_session
            "b".toList 100).2).get_session_count)) :=
  ⟨⟨by decide, by decide⟩,
   C6_capacity_eviction (⟨[("a".toList, ⟨"a".toList, [], 0, 0⟩)], 1, 10, 5⟩ : MemoryStore)
     "b".toList 100 (by decide) (by decide)⟩

/-- C3: evaluation of the role conversion at a failing input. Recognized
"user" maps to `User` and recognized "assistant" maps to `Assistant` as
claimed, and the conversion never raises; but an unrecognized role string
("banana") is stored as `Assistant`, not defaulted to `User` as the spec
(and the code's own `# Default to user if invalid role` comment) require:
the conversion is `USER if role.lower() == "user" else ASSISTANT`, so every
non-"user" string — valid or not — lands on `Assistant`. -/
theorem C3_role_defaulting_eval :
    parseRole "user".toList = MessageRole.user ∧
    parseRole "assistant".toList = MessageRole.assistant ∧
    parseRole "banana".toList = MessageRole.assistant ∧
    ((dictLookup
        (((⟨[], 1000, 24, 5⟩ : MemoryStore).add_message "s".toList "banana".toList
            "hi".toList 0).2).sessions "s".toList).map
      (fun s => s.messages.map ChatMessage.role)) = some [MessageRole.assistant] := by
  decide

/-- C4 counterexample: on code-marker text the re-chunking is NOT
byte-for-byte concatenation-preserving — `"def f"` takes the code path,
which appends a trailing space to every word, so the chunks concatenate to
`"def f "` ≠ `"def f"`. -/
theorem C4_counterexample :
    concatStr (simulate_smoother_streaming "def f".toList) ≠ "def f".toList := by
  decide

/-- C4 (amended): the cosmetic re-chunking preserves byte-for-byte
concatenation equivalence for every text that does NOT contain one of the
code markers "```", "def ", "import " (the regular-text path); on the code
path the non-blank space-split words are emitted each with a trailing
space appended, which collapses whitespace runs and appends a final space,
so equivalence can fail there. -/
theorem C4_rechunk_concat_preserving (text : Str)
    (h : (pyContains "```".toList text || pyContains "def ".toList text
          || pyContains "import ".toList text) = false) :
    concatStr (simulate_smoother_streaming text) = text := by
  unfold simulate_smoother_streaming
  by_cases ht : text = []
  · rw [if_pos ht, ht]
    rfl
  · rw [if_neg ht, if_neg (by rw [h]; exact Bool.false_ne_true)]
    rw [chunkWords_concat (splitSpace text) [] (splitSpace_ne_nil text)]
    rw [List.nil_append, joinSpace_splitSpace]

/-- Witness for C4 (amended): `"Hello  world, ok"` contains no code marker
and is re-chunked with exact concatenation equivalence. -/
theorem C4_rechunk_concat_preserving_witness :
    ((pyContains "```".toList "Hello  world, ok".toList
      || pyContains "def ".toList "Hello  world, ok".toList
      || pyContains "import ".toList "Hello  world, ok".toList) = false) ∧
    concatStr (simulate_smoother_streaming "Hello  world, ok".toList)
      = "Hello  world, ok".toList :=
  ⟨by decide, C4_rechunk_concat_preserving "Hello  world, ok".toList (by decide)⟩

/-- C1: evaluation of the streaming path at the failing input. The provider
fails (raises "boom") after emitting the increment "Hi there" on a fresh
session served by `POST /chat/stream`; the caller receives the re-chunked
increments, then a NORMAL chunk event carrying the text "Error: boom"
(because `generate_streaming_response` swallows the exception and yields it
as text), then the `done` terminal event — not an error event — and an
Assistant turn containing the partial text plus the error text IS appended
to the store, contradicting the claim on both counts. -/
theorem C1_failure_swallowed_eval :
    (chat_stream_route (⟨[], 1000, 24, 5⟩ : MemoryStore) "Q".toList none "s1".toList
        ["Hi there".toList] (some "boom".toList) 0).map
      (fun r => (r.events,
        (dictLookup r.store.sessions "s1".toList).map
          (fun s => s.messages.map (fun m => (m.role, m.content)))))
    = some
      ([Event.chunk "Hi ".toList "s1".toList,
        Event.chunk "there".toList "s1".toList,
        Event.chunk "Error: boom".toList "s1".toList,
        Event.done "s1".toList],
       some [(MessageRole.user, "Q".toList),
             (MessageRole.assistant, "Hi thereError: boom".toList)]) := by
  decide

/-- C8 counterexample: on the `/stream` endpoint, a first call on a fresh
session that carries initial `messages` takes the population branch: the
initial messages are appended AFTER the current prompt, and the context
`history[:-1]` then CONTAINS the just-appended prompt (and drops the last
populated message instead). The claim "the context … excludes the
just-appended current user prompt" is false at this input. -/
theorem C8_counterexample :
    ((stream_chat_route (⟨[], 1000, 24, 5⟩ : MemoryStore)
        [("user".toList, "hi".toList), ("assistant".toList, "ok".toList)]
        "yo".toList none "s1".toList ["resp".toList] none 0).ctx.map
      ChatMessage.content).contains "yo".toList = true := by
  decide

/-- C8 (amended): Scenario E holds — on a second `/stream` call (no initial
messages) against the session of a completed first call, the context passed
to the generator is exactly the first call's user turn and assistant turn
(2 turns), excluding the second prompt. The prompt-exclusion claim holds on
this path (and whenever the initial-messages population branch does not
run); it fails only on the population branch shown in the counterexample. -/
theorem C8_scenario_E (p₁ p₂ : Str) (pc₁ pc₂ : List Str) (t₁ t₂ T : Nat)
    (hT : t₂ - t₁ ≤ T) :
    (stream_chat_route
        (stream_chat_route (⟨[], 1000, T, 5⟩ : MemoryStore) [] p₁ none
          "s1".toList pc₁ none t₁).store
        [] p₂ (some "s1".toList) "s2".toList pc₂ none t₂).ctx
      = [⟨MessageRole.user, p₁, t₁⟩,
         ⟨MessageRole.assistant,
          concatStr (generate_streaming_response p₁ [] pc₁ none), t₁⟩] := by
  have hc : (⟨[], 1000, T, 5⟩ : MemoryStore).create_session "s1".toList t₁ =
      ("s1".toList, ⟨[("s1".toList, ⟨"s1".toList, [], t₁, t₁⟩)], 1000, T, 5⟩) := by
    unfold MemoryStore.create_session
    rw [if_neg (by simp)]
    rfl
  have h1 : stream_chat_route (⟨[], 1000, T, 5⟩ : MemoryStore) [] p₁ none
      "s1".toList pc₁ none t₁ =
      stream_chat_route (⟨[("s1".toList, ⟨"s1".toList, [], t₁, t₁⟩)], 1000, T, 5⟩ :
        MemoryStore) [] p₁ (some "s1".toList) "s1".toList pc₁ none t₁ := by
    rw [stream_chat_route_none, stream_chat_route_some, hc]
  have hcall1 := stream_chat_route_existing
    (⟨[("s1".toList, ⟨"s1".toList, [], t₁, t₁⟩)], 1000, T, 5⟩ : MemoryStore)
    p₁ "s1".toList "s1".toList pc₁ none t₁ ⟨"s1".toList, [], t₁, t₁⟩
    (dictLookup_cons_self _ _ _) (is_session_valid_updated_now _ _ t₁ rfl)
    (by simp)
  have hv2 : (⟨[("s1".toList,
      ⟨"s1".toList,
       [] ++ [⟨MessageRole.user, p₁, t₁⟩,
              ⟨MessageRole.assistant,
               concatStr (generate_streaming_response p₁ [] pc₁ none), t₁⟩],
       t₁, t₁⟩)], 1000, T, 5⟩ : MemoryStore).is_session_valid
      ⟨"s1".toList,
       [] ++ [⟨MessageRole.user, p₁, t₁⟩,
              ⟨MessageRole.assistant,
               concatStr (generate_streaming_response p₁ [] pc₁ none), t₁⟩],
       t₁, t₁⟩ t₂ = true := by
    unfold MemoryStore.is_session_valid
    exact decide_eq_true hT
  have hcall2 := stream_chat_route_existing
    (⟨[("s1".toList,
        ⟨"s1".toList,
         [] ++ [⟨MessageRole.user, p₁, t₁⟩,
                ⟨MessageRole.assistant,
                 concatStr (generate_streaming_response p₁ [] pc₁ none), t₁⟩],
         t₁, t₁⟩)], 1000, T, 5⟩ : MemoryStore)
    p₂ "s1".toList "s2".toList pc₂ none t₂
    ⟨"s1".toList,
     [] ++ [⟨MessageRole.user, p₁, t₁⟩,
            ⟨MessageRole.assistant,
             concatStr (generate_streaming_response p₁ [] pc₁ none), t₁⟩],
     t₁, t₁⟩
    (dictLookup_cons_self _ _ _) hv2 (by simp)
  rw [h1, hcall1]
  dsimp only
  rw [dictInsert_cons_self]
  rw [hcall2]
  dsimp only
  simp

/-- Witness for C8 (amended): two concrete back-to-back `/stream` calls at
time 0 on a fresh server; the second call's context is exactly the first
call's user and assistant turns. -/
theorem C8_scenario_E_witness :
    (0 - 0 ≤ 0) ∧
    (stream_chat_route
        (stream_chat_route (⟨[], 1000, 0, 5⟩ : MemoryStore) [] "a".toList none
          "s1".toList ["x".toList] none 0).store
        [] "b".toList (some "s1".toList) "s2".toList ["y".toList] none 0).ctx
      = [⟨MessageRole.user, "a".toList, 0⟩,
         ⟨MessageRole.assistant,
          concatStr (generate_streaming_response "a".toList [] ["x".toList] none), 0⟩] :=
  ⟨by decide,
   C8_scenario_E "a".toList "b".toList ["x".toList] ["y".toList] 0 0 0 (by decide)⟩

/-- C7: for every successfully completed streaming request (the provider
finishes without raising, `providerErr = none`), on both streaming
endpoints the delivered events are exactly the increment events followed by
one terminal done event tagged with the resolved session id; the
concatenation of the delivered increments equals the text stored in the
session as the final (Assistant) message — the done event is emitted after
that append, from the store already holding the turn. -/
theorem C7_completed_stream_concat (store : MemoryStore)
    (req_messages : List (Str × Str)) (message prompt : Str)
    (sidA sidB : Option Str) (freshA freshB : Str) (pcA pcB : List Str) (now : Nat)
    (hN : keysNodup store.sessions) :
    (∀ r : GenResult,
      stream_chat_route store req_messages prompt sidA freshA pcA none now = r →
      ∃ s : ChatSession,
        dictLookup r.store.sessions r.sid = some s ∧
        s.messages.getLast? =
          some ⟨MessageRole.assistant, concatStr (eventPayloads r.events), now⟩ ∧
        ∃ n, r.events = ((eventPayloads r.events).map (fun c => Event.chunk c r.sid))
            ++ [Event.doneFull r.sid (concatStr (eventPayloads r.events)) n]) ∧
    (∀ r : GenResult,
      chat_stream_route store message sidB freshB pcB none now = some r →
      ∃ s : ChatSession,
        dictLookup r.store.sessions r.sid = some s ∧
        s.messages.getLast? =
          some ⟨MessageRole.assistant, concatStr (eventPayloads r.events), now⟩ ∧
        r.events = ((eventPayloads r.events).map (fun c => Event.chunk c r.sid))
            ++ [Event.done r.sid]) := by
  constructor
  · intro r hr
    cases sidA with
    | some sid =>
        rw [stream_chat_route_some] at hr
        obtain ⟨hN1, -, -, -, s1, hs1, hu1⟩ :=
          add_message_keeps store sid "user".toList prompt now hN
        obtain ⟨ctx, st, s3, heq, hl, hlast⟩ :=
          stream_chat_generate_spec _ sid req_messages prompt pcA none now hN1 s1 hs1 hu1
        rw [heq] at hr
        subst hr
        dsimp only
        rw [eventPayloads_chunks_append _ sid _ (eventPayloads_doneFull _ _ _)]
        exact ⟨s3, hl, hlast, s3.messages.length, rfl⟩
    | none =>
        rw [stream_chat_route_none] at hr
        have hNc := create_session_keysNodup store freshA now hN
        obtain ⟨hN1, -, -, -, s1, hs1, hu1⟩ :=
          add_message_keeps ((store.create_session freshA now).2)
            ((store.create_session freshA now).1) "user".toList prompt now hNc
        obtain ⟨ctx, st, s3, heq, hl, hlast⟩ :=
          stream_chat_generate_spec _ ((store.create_session freshA now).1)
            req_messages prompt pcA none now hN1 s1 hs1 hu1
        rw [heq] at hr
        subst hr
        dsimp only
        rw [eventPayloads_chunks_append _ _ _ (eventPayloads_doneFull _ _ _)]
        exact ⟨s3, hl, hlast, s3.messages.length, rfl⟩
  · intro r hr
    cases sidB with
    | some sid =>
        cases hls : dictLookup store.sessions sid with
        | none =>
            rw [chat_stream_route_some_of_absent store message sid freshB pcB none now hls]
              at hr
            exact absurd hr (by simp)
        | some s =>
            cases hlv : store.is_session_valid s now with
            | false =>
                rw [chat_stream_route_some_of_expired store message sid freshB pcB
                    none now s hls hlv] at hr
                exact absurd hr (by simp)
            | true =>
                rw [chat_stream_route_some_of_valid store message sid freshB pcB
                    none now s hls hlv] at hr
                have haddo := add_message_object_of_valid_append store sid
                  ⟨MessageRole.user, message, now⟩ now s hls hlv
                rw [haddo] at hr
                have heq := chat_stream_generate_eq
                  (store.appendToSession sid s ⟨MessageRole.user, message, now⟩ now)
                  sid message pcB none now _
                  (appendToSession_lookup store sid s ⟨MessageRole.user, message, now⟩ now)
                  rfl
                rw [show ((true, store.appendToSession sid s
                    ⟨MessageRole.user, message, now⟩ now)).2 =
                    store.appendToSession sid s ⟨MessageRole.user, message, now⟩ now
                    from rfl] at hr
                rw [heq] at hr
                injection hr with hr
                subst hr
                dsimp only
                rw [eventPayloads_chunks_append _ sid _ (eventPayloads_done _)]
                exact ⟨_, appendToSession_lookup _ _ _ _ _, clampAppend_getLast _ _ _, rfl⟩
    | none =>
        rw [chat_stream_route_none] at hr
        have hNc := create_session_keysNodup store freshB now hN
        have haddo := add_message_object_of_valid_append ((store.create_session freshB now).2)
          ((store.create_session freshB now).1) ⟨MessageRole.user, message, now⟩ now
          ⟨(store.create_session freshB now).1, [], now, now⟩
          (create_session_lookup_self store freshB now)
          (is_session_valid_updated_now _ _ now rfl)
        rw [haddo] at hr
        have heq := chat_stream_generate_eq
          (((store.create_session freshB now).2).appendToSession
            ((store.create_session freshB now).1)
            ⟨(store.create_session freshB now).1, [], now, now⟩
            ⟨MessageRole.user, message, now⟩ now)
          ((store.create_session freshB now).1) message pcB none now _
          (appendToSession_lookup ((store.create_session freshB now).2)
            ((store.create_session freshB now).1)
            ⟨(store.create_session freshB now).1, [], now, now⟩
            ⟨MessageRole.user, message, now⟩ now)
          rfl
        rw [show ((true, ((store.create_session freshB now).2).appendToSession
            ((store.create_session freshB now).1)
            ⟨(store.create_session freshB now).1, [], now, now⟩
            ⟨MessageRole.user, message, now⟩ now)).2 =
            ((store.create_session freshB now).2).appendToSession
            ((store.create_session freshB now).1)
            ⟨(store.create_session freshB now).1, [], now, now⟩
            ⟨MessageRole.user, message, now⟩ now from rfl] at hr
        rw [heq] at hr
        injection hr with hr
        subst hr
        dsimp only
        rw [eventPayloads_chunks_append _ _ _ (eventPayloads_done _)]
        exact ⟨_, appendToSession_lookup _ _ _ _ _, clampAppend_getLast _ _ _, rfl⟩

/-- Witness for C7: both endpoints run on a fresh empty store at time 0
(fresh sessions, provider chunks ["x"] / ["y"], no provider error). -/
theorem C7_completed_stream_concat_witness :
    keysNodup (⟨[], 1000, 24, 5⟩ : MemoryStore).sessions ∧
    ((∀ r : GenResult,
      stream_chat_route (⟨[], 1000, 24, 5⟩ : MemoryStore) [] "p".toList none
          "s1".toList ["x".toList] none 0 = r →
      ∃ s : ChatSession,
        dictLookup r.store.sessions r.sid = some s ∧
        s.messages.getLast? =
          some ⟨MessageRole.assistant, concatStr (eventPayloads r.events), 0⟩ ∧
        ∃ n, r.events = ((eventPayloads r.events).map (fun c => Event.chunk c r.sid))
            ++ [Event.doneFull r.sid (concatStr (eventPayloads r.events)) n]) ∧
     (∀ r : GenResult,
      chat_stream_route (⟨[], 1000, 24, 5⟩ : MemoryStore) "m".toList none
          "s2".toList ["y".toList] none 0 = some r →
      ∃ s : ChatSession,
        dictLookup r.store.sessions r.sid = some s ∧
        s.messages.getLast? =
          some ⟨MessageRole.assistant, concatStr (eventPayloads r.events), 0⟩ ∧
        r.events = ((eventPayloads r.events).map (fun c => Event.chunk c r.sid))
            ++ [Event.done r.sid])) :=
  ⟨by decide,
   C7_completed_stream_concat (⟨[], 1000, 24, 5⟩ : MemoryStore) [] "m".toList "p".toList
     none none "s1".toList "s2".toList ["x".toList] ["y".toList] 0 (by decide)⟩
